import Mathlib

/-!
# Cluster reconciliation engine of the postgres operator

A shallow embedding of `pkg/cluster/cluster.go` and `pkg/cluster/pg.go`, and the
properties of the diffing, lifecycle and role-seeding code established on it.

Conventions of the embedding:

* a Go `error` is its message (`String`); a nil error is `none`;
* a Go slice that is compared with `reflect.DeepEqual` is an `Option (List α)`,
  `none` being the nil slice, so that deep equality is equality of the model
  value; a slice that is only measured, indexed or ranged over is a `List α`;
* a Go map with string keys is an association list with distinct keys, whose
  order is the order in which `range` visits the entries;
* a pointer that the code dereferences is an `Option`, and a dereference of a
  nil pointer (a run-time panic) is an explicit `fault` result;
* methods of the cluster that live outside the two files are fields of `Ops`;
* log statements have no effect on the results and are left out.
-/

set_option linter.dupNamespace false

namespace PostgresOperator

/-! ## Go maps -/

/-- A Go map with string keys: the entries in iteration order, keys distinct. -/
abbrev GoMap (V : Type) := List (String × V)

namespace GoMap

variable {V : Type}

/-- The keys of the map, in iteration order. -/
def keys (m : GoMap V) : List String := m.map Prod.fst

/-- The lookup `v, ok := m[k]`. -/
def get? (m : GoMap V) (k : String) : Option V :=
  match m with
  | [] => none
  | (k', v) :: rest => if k' = k then some v else get? rest k

/-- The test `_, ok := m[k]`. -/
def contains (m : GoMap V) (k : String) : Bool := (get? m k).isSome

/-- The statement `delete(m, k)`. -/
def delete (m : GoMap V) (k : String) : GoMap V := m.filter (fun e => decide (e.1 ≠ k))

/-- The assignment `m[k] = v`: an existing entry is replaced, a new key is added. -/
def set (m : GoMap V) (k : String) (v : V) : GoMap V := delete m k ++ [(k, v)]

/-- The builtin `len(m)`. -/
def len (m : GoMap V) : Nat := m.length

end GoMap

/-- Deep equality of two Go maps as `reflect.DeepEqual` decides it: both nil or
both allocated, of the same length, and every key of the first bound to an equal
value in the second. -/
def deepEqualMap {V : Type} [DecidableEq V] : Option (GoMap V) → Option (GoMap V) → Bool
  | none, none => true
  | some a, some b =>
      decide (a.length = b.length) && a.all (fun e => decide (GoMap.get? b e.1 = some e.2))
  | _, _ => false

/-! ## Orchestrator object types (the fields the cluster code reads) -/

/-- Object metadata. -/
structure ObjectMeta where
  Name : String
  Namespace : String
  ResourceVersion : String
  deriving DecidableEq, Repr

/-- One declared port of a container. -/
structure ContainerPort where
  Name : String
  HostPort : Int
  ContainerPort : Int
  Protocol : String
  HostIP : String
  deriving DecidableEq, Repr

/-- One environment variable of a container; `ValueFrom` is the pointer to the source
reference, nil or set, the struct behind it kept as a text that encodes its fields
one to one, so that deep equality is equality of the texts. -/
structure EnvVar where
  Name : String
  Value : String
  ValueFrom : Option String
  deriving DecidableEq, Repr

/-- A resource quantity as the struct `resource.Quantity` holds it: the amount
`value * 10^scale` of the field `i`; behind the pointer `d`, when it is set, the
arbitrary-precision decimal `unscaled * 10^(-scale)` that holds the amount instead;
the cached text `s`; and the format. `reflect.DeepEqual` compares these fields, so it
tells apart two representations of one amount. -/
structure Quantity where
  value : Int
  scale : Int
  d : Option (Int × Int)
  s : String
  Format : String
  deriving DecidableEq, Repr

/-- A resource list, `map[ResourceName]Quantity`; `none` is the nil map. -/
abbrev ResourceList := Option (GoMap Quantity)

/-- Resource requests and limits of a container. -/
structure ResourceRequirements where
  Limits : ResourceList
  Requests : ResourceList
  deriving DecidableEq, Repr

/-- The call `reflect.DeepEqual(r1, r2)` on two resource requirements: field by field,
each field a map. -/
def deepEqualResources (r1 r2 : ResourceRequirements) : Bool :=
  deepEqualMap r1.Limits r2.Limits && deepEqualMap r1.Requests r2.Requests

/-- A container of the pod template. -/
structure Container where
  Name : String
  Image : String
  Args : Option (List String)
  Ports : Option (List ContainerPort)
  Env : Option (List EnvVar)
  Resources : ResourceRequirements
  deriving DecidableEq, Repr

/-- The pod specification of a template. -/
structure PodSpec where
  Containers : List Container
  ServiceAccountName : String
  deriving DecidableEq, Repr

/-- The pod template of a workload descriptor. -/
structure PodTemplateSpec where
  ObjectMeta : ObjectMeta
  Spec : PodSpec
  deriving DecidableEq, Repr

/-- The specification of a workload descriptor; `Replicas` is a pointer. -/
structure StatefulSetSpec where
  Replicas : Option Int
  ServiceName : String
  Template : PodTemplateSpec
  deriving DecidableEq, Repr

/-- The replicated-workload descriptor. -/
structure StatefulSet where
  ObjectMeta : ObjectMeta
  Spec : StatefulSetSpec
  deriving DecidableEq, Repr

/-- The specification of a network service. -/
structure ServiceSpec where
  ServiceType : String
  LoadBalancerSourceRanges : Option (List String)
  deriving DecidableEq, Repr

/-- The network service descriptor. -/
structure Service where
  ObjectMeta : ObjectMeta
  Spec : ServiceSpec
  deriving DecidableEq, Repr

/-- The network endpoint descriptor. -/
structure Endpoints where
  ObjectMeta : ObjectMeta
  deriving DecidableEq, Repr

/-- An encrypted credential object. -/
structure Secret where
  ObjectMeta : ObjectMeta
  Data : GoMap String
  deriving DecidableEq, Repr

/-! ## The declared spec of a cluster (`spec.Postgresql`) -/

/-- The declared storage volume. -/
structure Volume where
  Size : String
  StorageClass : String
  deriving DecidableEq, Repr

/-- The declared resource requests and limits, kept as their declared text. -/
structure Resources where
  ResourceRequest : String
  ResourceLimits : String
  deriving DecidableEq, Repr

/-- The declared spec of a cluster. `Users` maps a user name to its declared flags,
`Databases` a database name to its owner. -/
structure PostgresSpec where
  TeamId : String
  PgVersion : String
  Resources : Resources
  Volume : Volume
  AllowedSourceRanges : Option (List String)
  NumberOfInstances : Int
  Users : GoMap (List String)
  Databases : GoMap String
  deriving DecidableEq, Repr

/-- The declarative record of a cluster. -/
structure Postgresql where
  Metadata : ObjectMeta
  Spec : PostgresSpec
  deriving DecidableEq, Repr

/-- A database role held in the role map. -/
structure PgUser where
  Name : String
  Password : String := ""
  Flags : List String := []
  MemberOf : List String := []
  deriving DecidableEq, Repr

/-- The name of a cluster. -/
structure ClusterName where
  Name : String
  Namespace : String
  deriving DecidableEq, Repr

/-! ## The cluster -/

/-- The observed sub-resources of a cluster; the three pointers are nil until set. -/
structure KubeResources where
  Service : Option Service
  Endpoint : Option Endpoints
  Secrets : GoMap Secret
  Statefulset : Option StatefulSet
  deriving DecidableEq, Repr

/-- A handle of an open database connection. -/
abbrev DbConn := Nat

/-- A channel of pod events, described by its capacity (zero: unbuffered). -/
structure PodEventChan where
  capacity : Nat
  deriving DecidableEq, Repr

/-- The state of everything outside the process (the orchestrator, the database
engine, the team service, the source of randomness), which the collaborator
operations read and change. -/
abbrev World := Nat

/-- The cluster entity. `world` takes the place of the client handles in the `config`
field of the Go struct: it is the state of the services behind them. -/
structure Cluster extends KubeResources, Postgresql where
  world : World
  etcdHost : String
  dockerImage : String
  pgUsers : GoMap PgUser
  podEvents : PodEventChan
  podSubscribers : GoMap PodEventChan
  pgDb : Option DbConn
  deriving DecidableEq, Repr

/-! ## Diffing -/

/-- The method `sameServiceWith`: only the allowed source ranges are compared. A nil
observed service, or a nil argument, is a nil dereference (`none`). -/
def sameServiceWith (c : Cluster) (service : Option Service) : Option Bool :=
  match c.Service, service with
  | some cur, some new =>
      some (decide (cur.Spec.LoadBalancerSourceRanges = new.Spec.LoadBalancerSourceRanges))
  | _, _ => none

/-- The method `sameVolumeWith`. -/
def sameVolumeWith (c : Cluster) (volume : Volume) : Bool := decide (c.Spec.Volume = volume)

/-- The method `compareStatefulSetWith`, returning `(equal, needsRollUpdate)`; `none`
is a nil dereference (of either descriptor or of either replica count). -/
def compareStatefulSetWith (c : Cluster) (statefulSet : Option StatefulSet) :
    Option (Bool × Bool) :=
  match c.Statefulset, statefulSet with
  | some cur, some new =>
    match cur.Spec.Replicas, new.Spec.Replicas with
    | some r1, some r2 =>
      let equal : Bool := if r1 ≠ r2 then false else true
      if cur.Spec.Template.Spec.Containers.length ≠ new.Spec.Template.Spec.Containers.length then
        some (false, true)
      else
        match cur.Spec.Template.Spec.Containers, new.Spec.Template.Spec.Containers with
        | [], _ => some (equal, false)
        | _ :: _, [] => none
        | container1 :: _, container2 :: _ =>
          if container1.Image ≠ container2.Image then some (false, true)
          else if container1.Ports ≠ container2.Ports then some (false, true)
          else if ¬ (deepEqualResources container1.Resources container2.Resources = true) then
            some (false, true)
          else if container1.Env ≠ container2.Env then some (false, true)
          else some (equal, false)
    | _, _ => none
  | _, _ => none

/-! ## Constants and collaborators -/

/-- The constant `constants.EtcdHost`. -/
def EtcdHost : String := "etcd-client.default.svc.cluster.local:2379"

/-- The constant `constants.SpiloImage`. -/
def SpiloImage : String := "registry.opensource.zalan.do/acid/spilo-9.6:1.2-p12"

/-- The constant `constants.PasswordLength`. -/
def PasswordLength : Nat := 64

/-- The constants that the two files use and that are declared outside them: the names
of the two system roles and the five role-flag names. -/
structure Constants where
  SuperuserName : String
  ReplicationUsername : String
  RoleFlagSuperuser : String
  RoleFlagInherit : String
  RoleFlagCreateRole : String
  RoleFlagCreateDB : String
  RoleFlagLogin : String
  deriving DecidableEq, Repr

/-- A call to a collaborator, as recorded in the history of an execution. -/
inductive Call where
  | createEndpoint
  | createService
  | applySecrets
  | createStatefulSet
  | waitStatefulsetPodsReady
  | createUsers
  | ListResources
  | updateService (service : Service)
  | updateStatefulSet (statefulSet : StatefulSet)
  | recreatePods
  | deleteEndpoint
  | deleteService
  | deleteStatefulSet
  | deleteSecret (secret : Secret)
  | deletePods
  | deletePersistenVolumeClaims
  | getTeamMembers
  | sqlOpen
  | dbPing (conn : DbConn)
  | dbClose (conn : DbConn)
  | dbQuery (conn : DbConn) (sql : String)
  | rowsClose
  deriving DecidableEq, Repr

/-- A cursor over the rows of a query: for every row that `Next` presents, in order,
the outcome of `Scan` on it, and the outcome of `Close` on the cursor while it is
still open. -/
structure Rows (α : Type) where
  scans : List (Except String α)
  closeErr : Option String

/-- The outcome of the deferred `rows.Close()`. When the loop has run to its end,
`Next` has found no further row and has closed the cursor itself, and `Close` on a
closed cursor returns nil; when the loop was left at a failed `Scan`, the cursor is
still open and `Close` returns its own outcome. -/
def Rows.deferredClose {α : Type} (rows : Rows α) (completed : Bool) : Option String :=
  if completed = true then none else rows.closeErr

/-- A row of the role catalog as `readPgUsersFromDatabase` scans it. -/
structure PgUserRow where
  rolname : String
  rolpassword : String
  rolsuper : Bool
  rolinherit : Bool
  rolcreaterole : Bool
  rolcreatedb : Bool
  rolcanlogin : Bool
  memberof : List String
  deriving DecidableEq, Repr

/-- The constant `getUserSQL`. -/
def getUserSQL : String :=
  "SELECT a.rolname, COALESCE(a.rolpassword, ''), a.rolsuper, a.rolinherit,\n" ++
  "\t        a.rolcreaterole, a.rolcreatedb, a.rolcanlogin,\n" ++
  "\t        ARRAY(SELECT b.rolname\n" ++
  "\t              FROM pg_catalog.pg_auth_members m\n" ++
  "\t              JOIN pg_catalog.pg_authid b ON (m.roleid = b.oid)\n" ++
  "\t             WHERE m.member = a.oid) as memberof\n" ++
  "\t FROM pg_catalog.pg_authid a\n" ++
  "\t WHERE a.rolname = ANY($1)\n" ++
  "\t ORDER BY 1;"

/-- The constant `getDatabasesSQL`. -/
def getDatabasesSQL : String :=
  "SELECT datname, a.rolname AS owner FROM pg_database d INNER JOIN pg_authid a ON a.oid = d.datdba;"

/-- The text `fmt.Sprintf(createDatabaseSQL, datname, owner)`: the two names are put
between double quotes as they are. -/
def createDatabaseSQL (datname owner : String) : String :=
  "CREATE DATABASE \"" ++ datname ++ "\" OWNER \"" ++ owner ++ "\";"

/-- The functions and methods that the two files call and that are defined outside
them. A method of the cluster is a function of the cluster (which holds the world)
returning its result and the cluster it leaves behind; an operation on a database
handle is a function of the world. -/
structure Ops where
  /-- The method `createEndpoint`. -/
  createEndpoint : Cluster → Except String Endpoints × Cluster
  /-- The method `createService`. -/
  createService : Cluster → Except String Service × Cluster
  /-- The method `applySecrets`. -/
  applySecrets : Cluster → Option String × Cluster
  /-- The method `createStatefulSet`. -/
  createStatefulSet : Cluster → Except String StatefulSet × Cluster
  /-- The method `waitStatefulsetPodsReady`. -/
  waitStatefulsetPodsReady : Cluster → Option String × Cluster
  /-- The method `createUsers`. -/
  createUsers : Cluster → Option String × Cluster
  /-- The method `ListResources`, whose result the callers drop. -/
  ListResources : Cluster → Cluster
  /-- The method `updateService`. -/
  updateService : Service → Cluster → Option String × Cluster
  /-- The method `updateStatefulSet`. -/
  updateStatefulSet : StatefulSet → Cluster → Option String × Cluster
  /-- The method `recreatePods`. -/
  recreatePods : Cluster → Option String × Cluster
  /-- The method `deleteEndpoint`. -/
  deleteEndpoint : Cluster → Option String × Cluster
  /-- The method `deleteService`. -/
  deleteService : Cluster → Option String × Cluster
  /-- The method `deleteStatefulSet`. -/
  deleteStatefulSet : Cluster → Option String × Cluster
  /-- The method `deleteSecret`. -/
  deleteSecret : Secret → Cluster → Option String × Cluster
  /-- The method `deletePods`. -/
  deletePods : Cluster → Option String × Cluster
  /-- The method `deletePersistenVolumeClaims`. -/
  deletePersistenVolumeClaims : Cluster → Option String × Cluster
  /-- The method `getTeamMembers`. -/
  getTeamMembers : Cluster → Except String (List String) × Cluster
  /-- The function `resources.Service`, returning a pointer. -/
  Service : ClusterName → String → Option (List String) → Option Service
  /-- The function `genStatefulSet`, returning a pointer. -/
  genStatefulSet : ClusterName → PostgresSpec → String → String → Option StatefulSet
  /-- The function `util.RandomPassword`: the password of the given length drawn in the
  given world, and the world after the draw. -/
  RandomPassword : Nat → World → String × World
  /-- The function `isValidUsername`. -/
  isValidUsername : String → Bool
  /-- The function `normalizeUserFlags`. -/
  normalizeUserFlags : List String → Except String (List String)
  /-- The call `sql.Open("postgres", c.pgConnectionString())`: the connection string is
  built from the cluster, so the outcome is a function of the cluster. -/
  sqlOpen : Cluster → Except String DbConn × World
  /-- The call `conn.Ping()`. -/
  dbPing : DbConn → World → Option String × World
  /-- The call `conn.Close()`. -/
  dbClose : DbConn → World → Option String × World
  /-- The call `c.pgDb.Query(getDatabasesSQL)`, its rows scanned as (name, owner). -/
  dbQueryDatabases : DbConn → World → Except String (Rows (String × String)) × World
  /-- The call `c.pgDb.Query(getUserSQL, pq.Array(userNames))`. -/
  dbQueryUsers : DbConn → List String → World → Except String (Rows PgUserRow) × World
  /-- The call `c.pgDb.Query(statement)` on a statement whose rows the caller drops. -/
  dbQueryStatement : DbConn → String → World → Option String × World

/-- The error of a Go result pair `(value, err)`. -/
def errOf {α : Type} : Except String α → Option String
  | .error err => some err
  | .ok _ => none

/-- An entry of the history of an execution: the call and the error it returned. -/
structure CallRecord where
  call : Call
  err : Option String
  deriving DecidableEq, Repr

/-- An execution state: the cluster and the calls made to collaborators so far. -/
structure Exec where
  c : Cluster
  calls : List CallRecord
  deriving DecidableEq, Repr

/-- Run a collaborator method that returns an error on the cluster and record the
call. -/
def Exec.call (s : Exec) (k : Call) (f : Cluster → Option String × Cluster) :
    Option String × Exec :=
  ((f s.c).1, { c := (f s.c).2, calls := s.calls ++ [{ call := k, err := (f s.c).1 }] })

/-- Run a collaborator method that returns a value and an error on the cluster and
record the call. -/
def Exec.callGet {α : Type} (s : Exec) (k : Call) (f : Cluster → Except String α × Cluster) :
    Except String α × Exec :=
  ((f s.c).1, { c := (f s.c).2, calls := s.calls ++ [{ call := k, err := errOf (f s.c).1 }] })

/-- Run a database-handle operation on the world and record the call. -/
def Exec.callWorld (s : Exec) (k : Call) (f : World → Option String × World) :
    Option String × Exec :=
  ((f s.c.world).1,
   { c := { s.c with world := (f s.c.world).2 },
     calls := s.calls ++ [{ call := k, err := (f s.c.world).1 }] })

/-- Run a database-handle operation that returns a value and an error on the world
and record the call. -/
def Exec.callWorldGet {α : Type} (s : Exec) (k : Call) (f : World → Except String α × World) :
    Except String α × Exec :=
  ((f s.c.world).1,
   { c := { s.c with world := (f s.c.world).2 },
     calls := s.calls ++ [{ call := k, err := errOf (f s.c.world).1 }] })

/-- How a call of a method ends: it returns (an error or nil), or it panics on a nil
dereference. -/
inductive Outcome where
  | returned (err : Option String)
  | fault
  deriving DecidableEq, Repr

/-! ## Construction -/

/-- The constructor `New`: the spec is stored, the maps are allocated empty, the
event channel is unbuffered, and every pointer is left nil. -/
def New (cfg : World) (pgSpec : Postgresql) : Cluster :=
  { Service := none, Endpoint := none, Secrets := [], Statefulset := none,
    toPostgresql := pgSpec,
    world := cfg, etcdHost := EtcdHost, dockerImage := SpiloImage,
    pgUsers := [], podEvents := { capacity := 0 }, podSubscribers := [],
    pgDb := none }

/-- The method `ClusterName`. -/
def Cluster.ClusterName (c : Cluster) : ClusterName :=
  { Name := c.Metadata.Name, Namespace := c.Metadata.Namespace }

/-- The method `TeamName`. -/
def Cluster.TeamName (c : Cluster) : String := c.Spec.TeamId

/-! ## Role seeding -/

/-- The method `initSystemUsers`: the superuser and the replication role, each with a
freshly drawn password. -/
def initSystemUsers (K : Constants) (ops : Ops) (s : Exec) : Exec :=
  let p1 := ops.RandomPassword PasswordLength s.c.world
  let c1 : Cluster := { s.c with
    world := p1.2,
    pgUsers := s.c.pgUsers.set K.SuperuserName
      { Name := K.SuperuserName, Password := p1.1 } }
  let p2 := ops.RandomPassword PasswordLength c1.world
  let c2 : Cluster := { c1 with
    world := p2.2,
    pgUsers := c1.pgUsers.set K.ReplicationUsername
      { Name := K.ReplicationUsername, Password := p2.1 } }
  { s with c := c2 }

/-- The loop of `initRobotUsers` over the declared users still to visit. -/
def initRobotUsersLoop (ops : Ops) : List (String × List String) → Cluster → Option String × Cluster
  | [], c => (none, c)
  | (username, userFlags) :: rest, c =>
    if ¬ (ops.isValidUsername username = true) then
      (some ("Invalid username: '" ++ username ++ "'"), c)
    else
      match ops.normalizeUserFlags userFlags with
      | .error err => (some ("Invalid flags for user '" ++ username ++ "': " ++ err), c)
      | .ok flags =>
        let p := ops.RandomPassword PasswordLength c.world
        initRobotUsersLoop ops rest { c with
          world := p.2,
          pgUsers := c.pgUsers.set username
            { Name := username, Password := p.1, Flags := flags } }

/-- The method `initRobotUsers`: every declared user, in the iteration order of the
map, stopping at the first invalid name or flag list. -/
def initRobotUsers (ops : Ops) (s : Exec) : Option String × Exec :=
  let r := initRobotUsersLoop ops s.c.Spec.Users s.c
  (r.1, { s with c := r.2 })

/-- The loop of `initHumanUsers` over the team members still to visit. -/
def initHumanUsersLoop : List String → Cluster → Cluster
  | [], c => c
  | username :: rest, c =>
    initHumanUsersLoop rest { c with pgUsers := c.pgUsers.set username { Name := username } }

/-- The method `initHumanUsers`. -/
def initHumanUsers (ops : Ops) (s : Exec) : Option String × Exec :=
  let r := s.callGet .getTeamMembers ops.getTeamMembers
  match r.1 with
  | .error err => (some ("Can't get list of team members: " ++ err), r.2)
  | .ok teamMembers => (none, { r.2 with c := initHumanUsersLoop teamMembers r.2.c })

/-! ## Database connection -/

/-- The method `initDbConn`. -/
def initDbConn (ops : Ops) (s : Exec) : Option String × Exec :=
  match s.c.pgDb with
  | none =>
    let r := s.callGet .sqlOpen (fun c => ((ops.sqlOpen c).1, { c with world := (ops.sqlOpen c).2 }))
    match r.1 with
    | .error err => (some err, r.2)
    | .ok conn =>
      let p := r.2.callWorld (.dbPing conn) (ops.dbPing conn)
      match p.1 with
      | some err => (some err, (p.2.callWorld (.dbClose conn) (ops.dbClose conn)).2)
      | none => (none, { p.2 with c := { p.2.c with pgDb := some conn } })
  | some _ => (none, s)

/-! ## Lifecycle -/

/-- The method `Create`: the provisioning sequence, returning at the first failure. -/
def Create (K : Constants) (ops : Ops) (s : Exec) : Option String × Exec :=
  let r1 := s.callGet .createEndpoint ops.createEndpoint
  match r1.1 with
  | .error err => (some ("Can't create Endpoint: " ++ err), r1.2)
  | .ok _ =>
  let r2 := r1.2.callGet .createService ops.createService
  match r2.1 with
  | .error err => (some ("Can't create Service: " ++ err), r2.2)
  | .ok _ =>
  let s3 := initSystemUsers K ops r2.2
  let r4 := initRobotUsers ops s3
  match r4.1 with
  | some err => (some ("Can't init robot users: " ++ err), r4.2)
  | none =>
  let r5 := initHumanUsers ops r4.2
  match r5.1 with
  | some err => (some ("Can't init human users: " ++ err), r5.2)
  | none =>
  let r6 := r5.2.call .applySecrets ops.applySecrets
  match r6.1 with
  | some err => (some ("Can't create Secrets: " ++ err), r6.2)
  | none =>
  let r7 := r6.2.callGet .createStatefulSet ops.createStatefulSet
  match r7.1 with
  | .error err => (some ("Can't create StatefulSet: " ++ err), r7.2)
  | .ok _ =>
  let r8 := r7.2.call .waitStatefulsetPodsReady ops.waitStatefulsetPodsReady
  match r8.1 with
  | some err => (some err, r8.2)
  | none =>
  let r9 := initDbConn ops r8.2
  match r9.1 with
  | some err => (some ("Can't init db connection: " ++ err), r9.2)
  | none =>
  let r10 := r9.2.call .createUsers ops.createUsers
  match r10.1 with
  | some err => (some ("Can't create users: " ++ err), r10.2)
  | none =>
  (none, (r10.2.call .ListResources (fun c => (none, ops.ListResources c))).2)

/-- The method `Update`. The argument is a non-nil pointer to the new record. -/
def Update (ops : Ops) (newSpec : Postgresql) (s : Exec) : Outcome × Exec :=
  let newService :=
    ops.Service s.c.ClusterName s.c.TeamName newSpec.Spec.AllowedSourceRanges
  match sameServiceWith s.c newService, newService with
  | none, _ => (.fault, s)
  | some _, none => (.fault, s)
  | some same, some service =>
  let p1 : Option Outcome × Exec :=
    if same = false then
      let r := s.call (.updateService service) (ops.updateService service)
      match r.1 with
      | some err => (some (.returned (some ("Can't update Service: " ++ err))), r.2)
      | none => if r.2.c.Service.isNone then (some .fault, r.2) else (none, r.2)
    else (none, s)
  match p1 with
  | (some out, s1) => (out, s1)
  | (none, s1) =>
  let newStatefulSet :=
    ops.genStatefulSet s1.c.ClusterName newSpec.Spec s1.c.etcdHost s1.c.dockerImage
  match compareStatefulSetWith s1.c newStatefulSet, newStatefulSet with
  | none, _ => (.fault, s1)
  | some _, none => (.fault, s1)
  | some (sameSS, rollingUpdate), some statefulSet =>
  let p2 : Option Outcome × Exec :=
    if sameSS = false then
      let r := s1.call (.updateStatefulSet statefulSet) (ops.updateStatefulSet statefulSet)
      match r.1 with
      | some err => (some (.returned (some ("Can't upate StatefulSet: " ++ err))), r.2)
      | none => if r.2.c.Statefulset.isNone then (some .fault, r.2) else (none, r.2)
    else (none, s1)
  match p2 with
  | (some out, s2) => (out, s2)
  | (none, s2) =>
  let rollingUpdate : Bool :=
    if s2.c.Spec.Resources ≠ newSpec.Spec.Resources then true else rollingUpdate
  if rollingUpdate = true then
    let r := s2.call .recreatePods ops.recreatePods
    match r.1 with
    | some err => (.returned (some ("Can't recreate Pods: " ++ err)), r.2)
    | none => (.returned none, r.2)
  else (.returned none, s2)

/-- The loop of `Delete` over the stored secrets: the keys present when the loop
starts, in iteration order; a key whose entry has been removed before it is reached
is not visited, and the value visited is the one stored when the key is reached. -/
def deleteSecretsLoop (ops : Ops) : List String → Exec → Exec
  | [], s => s
  | uid :: rest, s =>
    match GoMap.get? s.c.Secrets uid with
    | some obj => deleteSecretsLoop ops rest (s.call (.deleteSecret obj) (ops.deleteSecret obj)).2
    | none => deleteSecretsLoop ops rest s

/-- The method `Delete`: every teardown step is attempted; only the failure of the
last one is returned. Reading the name of a nil endpoint, service or workload
descriptor is a nil dereference. -/
def Delete (ops : Ops) (s : Exec) : Outcome × Exec :=
  match s.c.Endpoint with
  | none => (.fault, s)
  | some _ =>
  let s1 := (s.call .deleteEndpoint ops.deleteEndpoint).2
  match s1.c.Service with
  | none => (.fault, s1)
  | some _ =>
  let s2 := (s1.call .deleteService ops.deleteService).2
  match s2.c.Statefulset with
  | none => (.fault, s2)
  | some _ =>
  let s3 := (s2.call .deleteStatefulSet ops.deleteStatefulSet).2
  let s4 := deleteSecretsLoop ops (GoMap.keys s3.c.Secrets) s3
  let s5 := (s4.call .deletePods ops.deletePods).2
  let r := s5.call .deletePersistenVolumeClaims ops.deletePersistenVolumeClaims
  match r.1 with
  | some err => (.returned (some ("Can't delete PersistentVolumeClaims: " ++ err)), r.2)
  | none => (.returned none, r.2)

/-- What the teardown collaborators are assumed to leave alone: each of them keeps the
observed sub-resources that `Delete` reads after it, and the deletion of a secret
keeps the entries that hold other secrets. -/
def Ops.teardownFrame (ops : Ops) : Prop :=
  (∀ c, (ops.deleteEndpoint c).2.Service = c.Service ∧
        (ops.deleteEndpoint c).2.Statefulset = c.Statefulset ∧
        (ops.deleteEndpoint c).2.Secrets = c.Secrets) ∧
  (∀ c, (ops.deleteService c).2.Statefulset = c.Statefulset ∧
        (ops.deleteService c).2.Secrets = c.Secrets) ∧
  (∀ c, (ops.deleteStatefulSet c).2.Secrets = c.Secrets) ∧
  (∀ obj c k, GoMap.get? c.Secrets k ≠ some obj →
        GoMap.get? (ops.deleteSecret obj c).2.Secrets k = GoMap.get? c.Secrets k)

/-- The attempts on the stored secrets, in the words of the teardown contract:
`deleteSecret` is called on each secret of the list in turn, on the cluster that the
call before has left. The result is the cluster that the last call leaves, and the
record of every call made with the error that it returned. -/
def attemptEverySecret (ops : Ops) : List Secret → Cluster → Cluster × List CallRecord
  | [], c => (c, [])
  | obj :: rest, c =>
    ((attemptEverySecret ops rest (ops.deleteSecret obj c).2).1,
     { call := .deleteSecret obj, err := (ops.deleteSecret obj c).1 } ::
       (attemptEverySecret ops rest (ops.deleteSecret obj c).2).2)

/-! ## The provisioning sequence as a list of steps -/

/-- One step of a sequence: its name, how its error is turned into the error of the
sequence, and its effect. -/
structure Step where
  name : String
  wrap : String → String
  run : Exec → Option String × Exec

/-- Run the steps in order; at the first failing step return its error, turned by the
step, and the state as that step left it. -/
def runSteps : List Step → Exec → Option String × Exec
  | [], s => (none, s)
  | st :: rest, s =>
    match (st.run s).1 with
    | some err => (some (st.wrap err), (st.run s).2)
    | none => runSteps rest (st.run s).2

/-- Run the steps in order: the final state if every one of them succeeds. -/
def succeedAll : List Step → Exec → Option Exec
  | [], s => some s
  | st :: rest, s =>
    match (st.run s).1 with
    | some _ => none
    | none => succeedAll rest (st.run s).2

/-- The steps of `Create`, in the order of the source, each with the error message
that the source builds for it. -/
def createSteps (K : Constants) (ops : Ops) : List Step :=
  [ { name := "createEndpoint", wrap := fun err => "Can't create Endpoint: " ++ err,
      run := fun s => (errOf (s.callGet .createEndpoint ops.createEndpoint).1,
                       (s.callGet .createEndpoint ops.createEndpoint).2) },
    { name := "createService", wrap := fun err => "Can't create Service: " ++ err,
      run := fun s => (errOf (s.callGet .createService ops.createService).1,
                       (s.callGet .createService ops.createService).2) },
    { name := "initSystemUsers", wrap := fun err => err,
      run := fun s => (none, initSystemUsers K ops s) },
    { name := "initRobotUsers", wrap := fun err => "Can't init robot users: " ++ err,
      run := initRobotUsers ops },
    { name := "initHumanUsers", wrap := fun err => "Can't init human users: " ++ err,
      run := initHumanUsers ops },
    { name := "applySecrets", wrap := fun err => "Can't create Secrets: " ++ err,
      run := fun s => s.call .applySecrets ops.applySecrets },
    { name := "createStatefulSet", wrap := fun err => "Can't create StatefulSet: " ++ err,
      run := fun s => (errOf (s.callGet .createStatefulSet ops.createStatefulSet).1,
                       (s.callGet .createStatefulSet ops.createStatefulSet).2) },
    { name := "waitStatefulsetPodsReady", wrap := fun err => err,
      run := fun s => s.call .waitStatefulsetPodsReady ops.waitStatefulsetPodsReady },
    { name := "initDbConn", wrap := fun err => "Can't init db connection: " ++ err,
      run := initDbConn ops },
    { name := "createUsers", wrap := fun err => "Can't create users: " ++ err,
      run := fun s => s.call .createUsers ops.createUsers },
    { name := "ListResources", wrap := fun err => err,
      run := fun s => (none, (s.call .ListResources (fun c => (none, ops.ListResources c))).2) } ]

/-! ## Regular expressions (the part of Go's `regexp` that the name pattern uses) -/

/-- A regular expression over characters. -/
inductive Regex where
  | nothing
  | eps
  | cls (ranges : List (Char × Char))
  | seq (r1 r2 : Regex)
  | alt (r1 r2 : Regex)
  | star (r : Regex)
  deriving DecidableEq, Repr

/-- Membership of a character in a class given by its ranges, bounds included. -/
def inClass (ranges : List (Char × Char)) (c : Char) : Bool :=
  ranges.any (fun b => decide (b.1.val ≤ c.val) && decide (c.val ≤ b.2.val))

/-- Whether the expression matches the empty text. -/
def Regex.nullable : Regex → Bool
  | .nothing => false
  | .eps => true
  | .cls _ => false
  | .seq r1 r2 => r1.nullable && r2.nullable
  | .alt r1 r2 => r1.nullable || r2.nullable
  | .star _ => true

/-- The derivative of the expression by a character: what remains to be matched after
reading it. -/
def Regex.deriv (c : Char) : Regex → Regex
  | .nothing => .nothing
  | .eps => .nothing
  | .cls ranges => if inClass ranges c = true then .eps else .nothing
  | .seq r1 r2 =>
    if r1.nullable = true then .alt (.seq (r1.deriv c) r2) (r2.deriv c)
    else .seq (r1.deriv c) r2
  | .alt r1 r2 => .alt (r1.deriv c) (r2.deriv c)
  | .star r => .seq (r.deriv c) (.star r)

/-- Whether the expression matches the whole of the text. -/
def Regex.fullMatch : Regex → List Char → Bool
  | r, [] => r.nullable
  | r, c :: cs => (r.deriv c).fullMatch cs

/-- A compiled pattern: its body, and whether it opens with `^` and closes with `$`
(without flags: the beginning and the end of the text). -/
structure Regexp where
  atStart : Bool
  body : Regex
  atEnd : Bool
  deriving DecidableEq, Repr

/-- The method `MatchString`: whether the text contains a match of the pattern; an
anchor pins the match to the beginning or to the end of the text. -/
def Regexp.MatchString (re : Regexp) (s : String) : Bool :=
  (if re.atStart = true then [s.toList] else s.toList.tails).any fun fromStart =>
    (if re.atEnd = true then [fromStart] else fromStart.inits).any fun candidate =>
      re.body.fullMatch candidate

/-- The pattern `alphaNumericRegexp`, compiled from `^[a-zA-Z][a-zA-Z0-9]*$`. -/
def alphaNumericRegexp : Regexp :=
  { atStart := true,
    body := .seq (.cls [('a', 'z'), ('A', 'Z')])
                 (.star (.cls [('a', 'z'), ('A', 'Z'), ('0', '9')])),
    atEnd := true }

/-! ## Role flags -/

/-- The function `makeUserFlags`. -/
def makeUserFlags (K : Constants)
    (rolsuper rolinherit rolcreaterole rolcreatedb rolcanlogin : Bool) : List String :=
  let result : List String := []
  let result := if rolsuper = true then result ++ [K.RoleFlagSuperuser] else result
  let result := if rolinherit = true then result ++ [K.RoleFlagInherit] else result
  let result := if rolcreaterole = true then result ++ [K.RoleFlagCreateRole] else result
  let result := if rolcreatedb = true then result ++ [K.RoleFlagCreateDB] else result
  let result := if rolcanlogin = true then result ++ [K.RoleFlagLogin] else result
  result

/-- Decoding of a flag list, as the round trip reads it: each of the five booleans is
the membership of its flag name in the list. -/
def decodeUserFlags (K : Constants) (flags : List String) : Bool × Bool × Bool × Bool × Bool :=
  (decide (K.RoleFlagSuperuser ∈ flags), decide (K.RoleFlagInherit ∈ flags),
   decide (K.RoleFlagCreateRole ∈ flags), decide (K.RoleFlagCreateDB ∈ flags),
   decide (K.RoleFlagLogin ∈ flags))

/-! ## Database catalog -/

/-- The method `closeDbConn`: a cached handle is closed and dropped, whatever `Close`
returns; the result is nil in every case. -/
def closeDbConn (ops : Ops) (s : Exec) : Option String × Exec :=
  match s.c.pgDb with
  | some conn =>
    let r := s.callWorld (.dbClose conn) (ops.dbClose conn)
    (none, { r.2 with c := { r.2.c with pgDb := none } })
  | none => (none, s)

/-- How a call of a method with the results `(value, err)` ends: it returns the pair
(a nil value is `none`), or it panics on a nil dereference. -/
inductive Res (α : Type) where
  | returned (value : Option α) (err : Option String)
  | fault
  deriving DecidableEq, Repr

/-- The deferred statement `rows.Close()`, recorded with its outcome. -/
def Exec.closeRows {α : Type} (s : Exec) (rows : Rows α) (completed : Bool) : Exec :=
  { s with calls := s.calls ++ [{ call := .rowsClose, err := rows.deferredClose completed }] }

/-- The loop of `readPgUsersFromDatabase` over the rows still to visit, with the map
built so far: the pair that the `return` statement reached sets. -/
def readPgUsersFromDatabaseLoop (K : Constants) :
    List (Except String PgUserRow) → GoMap PgUser → Option (GoMap PgUser) × Option String
  | [], users => (some users, none)
  | .error err :: _, _ => (none, some ("error when processing user rows: " ++ err))
  | .ok row :: rest, users =>
    readPgUsersFromDatabaseLoop K rest (users.set row.rolname
      { Name := row.rolname, Password := row.rolpassword,
        Flags := makeUserFlags K row.rolsuper row.rolinherit row.rolcreaterole
          row.rolcreatedb row.rolcanlogin,
        MemberOf := row.memberof })

/-- The method `readPgUsersFromDatabase`. Its results are named, so the deferred
closure that closes the cursor, which runs after the `return` statement has set them,
replaces the error result when `Close` fails. Calling `Query` on a nil handle is a nil
dereference. -/
def readPgUsersFromDatabase (K : Constants) (ops : Ops) (userNames : List String) (s : Exec) :
    Res (GoMap PgUser) × Exec :=
  match s.c.pgDb with
  | none => (.fault, s)
  | some conn =>
  let q := s.callWorldGet (.dbQuery conn getUserSQL) (ops.dbQueryUsers conn userNames)
  match q.1 with
  | .error err => (.returned none (some ("error when querying users: " ++ err)), q.2)
  | .ok rows =>
  let result := readPgUsersFromDatabaseLoop K rows.scans []
  match rows.deferredClose result.2.isNone with
  | some err2 =>
    (.returned result.1 (some ("error when closing query cursor: " ++ err2)),
     q.2.closeRows rows result.2.isNone)
  | none => (.returned result.1 result.2, q.2.closeRows rows result.2.isNone)

/-- The loop of `getDatabases` over the rows still to visit, with the map built so
far: the pair that the `return` statement reached returns. -/
def getDatabasesLoop :
    List (Except String (String × String)) → GoMap String → Option (GoMap String) × Option String
  | [], dbs => (some dbs, none)
  | .error err :: _, _ => (none, some ("error when processing row: " ++ err))
  | .ok (datname, owner) :: rest, dbs => getDatabasesLoop rest (dbs.set datname owner)

/-- The method `getDatabases`. Its results are not named: the deferred closure that
closes the cursor assigns the local variable `err`, which no `return` statement reads
afterwards, so the outcome of `Close` does not reach the results. The deferred
`closeDbConn` runs last. -/
def getDatabases (ops : Ops) (s : Exec) : Res (GoMap String) × Exec :=
  let r := initDbConn ops s
  match r.1 with
  | some _ => (.returned none (some "could not init db connection"), r.2)
  | none =>
  match r.2.c.pgDb with
  | none => (.fault, r.2)
  | some conn =>
  let q := r.2.callWorldGet (.dbQuery conn getDatabasesSQL) (ops.dbQueryDatabases conn)
  match q.1 with
  | .error err =>
    (.returned none (some ("could not query database: " ++ err)), (closeDbConn ops q.2).2)
  | .ok rows =>
  let result := getDatabasesLoop rows.scans []
  (.returned result.1 result.2, (closeDbConn ops (q.2.closeRows rows result.2.isNone)).2)

/-- The statements `delete(m, k)` for every key of the list, in order. -/
def deleteKeys {V : Type} (m : GoMap V) : List String → GoMap V
  | [] => m
  | k :: ks => deleteKeys (GoMap.delete m k) ks

/-- The loop of `createDatabases` over the desired databases still to visit. -/
def createDatabasesLoop (ops : Ops) : List (String × String) → Exec → Outcome × Exec
  | [], s => (.returned none, s)
  | (datname, owner) :: rest, s =>
    if GoMap.contains s.c.pgUsers owner = false then createDatabasesLoop ops rest s
    else if alphaNumericRegexp.MatchString datname = false then createDatabasesLoop ops rest s
    else
      match s.c.pgDb with
      | none => (.fault, s)
      | some conn =>
        let q := s.callWorld (.dbQuery conn (createDatabaseSQL datname owner))
          (ops.dbQueryStatement conn (createDatabaseSQL datname owner))
        match q.1 with
        | some err => (.returned (some ("could not query database: " ++ err)), q.2)
        | none => createDatabasesLoop ops rest q.2

/-- The method `createDatabases`. The variable `newDbs` is the map `c.Spec.Databases`
itself, so the deletions are made in the declared spec of the cluster. -/
def createDatabases (ops : Ops) (s : Exec) : Outcome × Exec :=
  let g := getDatabases ops s
  match g.1 with
  | .fault => (.fault, g.2)
  | .returned _ (some err) =>
    (.returned (some ("could not get current databases: " ++ err)), g.2)
  | .returned curDbs none =>
  let newDbs := deleteKeys g.2.c.Spec.Databases (GoMap.keys (curDbs.getD []))
  let s1 : Exec :=
    { g.2 with c := { g.2.c with Spec := { g.2.c.Spec with Databases := newDbs } } }
  if GoMap.len newDbs = 0 then (.returned none, s1)
  else
  let r := initDbConn ops s1
  match r.1 with
  | some _ => (.returned (some "could not init db connection"), r.2)
  | none =>
  let l := createDatabasesLoop ops r.2.c.Spec.Databases r.2
  (l.1, (closeDbConn ops l.2).2)

/-- The texts of the queries among the recorded calls, in order. -/
def queriesOf : List CallRecord → List String
  | [] => []
  | { call := .dbQuery _ sql, err := _ } :: rest => sql :: queriesOf rest
  | _ :: rest => queriesOf rest

/-- A step that touches the database only: of the cluster it changes at most the
world and the cached handle, and the queries among the calls it adds are `queries`. -/
def Exec.dbStep (s s' : Exec) (queries : List String) : Prop :=
  s'.c = { s.c with world := s'.c.world, pgDb := s'.c.pgDb } ∧
  ∃ made, s'.calls = s.calls ++ made ∧ queriesOf made = queries

/-! ## Sample descriptors -/

/-- Metadata of the sample objects. -/
def sampleMeta : ObjectMeta := { Name := "acid-test", Namespace := "default", ResourceVersion := "1" }

/-- The quantity that the text "1" parses to: one unit, the text cached. -/
def cpuOne : Quantity := { value := 1, scale := 0, d := none, s := "1", Format := "DecimalSI" }

/-- The quantity that the text "100m" parses to. -/
def cpuHundredMilli : Quantity :=
  { value := 100, scale := -3, d := none, s := "100m", Format := "DecimalSI" }

/-- A sample container. -/
def sampleContainer : Container :=
  { Name := "postgres", Image := "spilo:1.0", Args := none,
    Ports := some [{ Name := "postgresql", HostPort := 0, ContainerPort := 5432,
                     Protocol := "TCP", HostIP := "" }],
    Env := some [{ Name := "SCOPE", Value := "acid-test", ValueFrom := none }],
    Resources := { Limits := some [("cpu", cpuOne)], Requests := some [("cpu", cpuHundredMilli)] } }

/-- A sample workload descriptor with the given replica count and containers. -/
def sampleStatefulSet (replicas : Int) (containers : List Container) : StatefulSet :=
  { ObjectMeta := sampleMeta,
    Spec := { Replicas := some replicas, ServiceName := "acid-test",
              Template := { ObjectMeta := sampleMeta,
                            Spec := { Containers := containers, ServiceAccountName := "operator" } } } }

/-- A sample declared spec. -/
def sampleSpec : PostgresSpec :=
  { TeamId := "teamA", PgVersion := "9.6", Resources := { ResourceRequest := "100m", ResourceLimits := "1" },
    Volume := { Size := "1Gi", StorageClass := "" }, AllowedSourceRanges := some ["10.0.0.0/8"],
    NumberOfInstances := 2, Users := [], Databases := [] }

/-- A sample cluster observing the given workload descriptor. -/
def sampleCluster (observed : Option StatefulSet) : Cluster :=
  { Service := some { ObjectMeta := sampleMeta,
                      Spec := { ServiceType := "LoadBalancer",
                                LoadBalancerSourceRanges := some ["10.0.0.0/8"] } },
    Endpoint := some { ObjectMeta := sampleMeta },
    Secrets := [], Statefulset := observed,
    Metadata := sampleMeta, Spec := sampleSpec,
    world := 0, etcdHost := "etcd:2379", dockerImage := "spilo:1.0",
    pgUsers := [], podEvents := { capacity := 0 }, podSubscribers := [],
    pgDb := none }

/-- Sample constants. -/
def sampleConstants : Constants :=
  { SuperuserName := "postgres", ReplicationUsername := "replication",
    RoleFlagSuperuser := "SUPERUSER", RoleFlagInherit := "INHERIT",
    RoleFlagCreateRole := "CREATEROLE", RoleFlagCreateDB := "CREATEDB",
    RoleFlagLogin := "LOGIN" }

/-- Sample collaborators: every operation succeeds; creation stores the created
object, deletion of a secret removes it from the map, the team has one member. -/
def sampleOps : Ops :=
  { createEndpoint := fun c =>
      (.ok { ObjectMeta := sampleMeta }, { c with Endpoint := some { ObjectMeta := sampleMeta } }),
    createService := fun c =>
      (.ok { ObjectMeta := sampleMeta,
             Spec := { ServiceType := "LoadBalancer",
                       LoadBalancerSourceRanges := c.Spec.AllowedSourceRanges } },
       { c with Service := some { ObjectMeta := sampleMeta,
                                  Spec := { ServiceType := "LoadBalancer",
                                            LoadBalancerSourceRanges := c.Spec.AllowedSourceRanges } } }),
    applySecrets := fun c => (none, c),
    createStatefulSet := fun c =>
      (.ok (sampleStatefulSet c.Spec.NumberOfInstances [sampleContainer]),
       { c with Statefulset := some (sampleStatefulSet c.Spec.NumberOfInstances [sampleContainer]) }),
    waitStatefulsetPodsReady := fun c => (none, c),
    createUsers := fun c => (none, c),
    ListResources := fun c => c,
    updateService := fun service c => (none, { c with Service := some service }),
    updateStatefulSet := fun statefulSet c => (none, { c with Statefulset := some statefulSet }),
    recreatePods := fun c => (none, c),
    deleteEndpoint := fun c => (none, { c with Endpoint := none }),
    deleteService := fun c => (none, { c with Service := none }),
    deleteStatefulSet := fun c => (none, { c with Statefulset := none }),
    deleteSecret := fun secret c =>
      (none, { c with Secrets := c.Secrets.filter (fun e => decide (e.2 ≠ secret)) }),
    deletePods := fun c => (none, c),
    deletePersistenVolumeClaims := fun c => (none, c),
    getTeamMembers := fun c => (.ok ["alice"], c),
    Service := fun _ _ ranges =>
      some { ObjectMeta := sampleMeta,
             Spec := { ServiceType := "LoadBalancer", LoadBalancerSourceRanges := ranges } },
    genStatefulSet := fun _ spec _ image =>
      some (sampleStatefulSet spec.NumberOfInstances [{ sampleContainer with Image := image }]),
    RandomPassword := fun n w => (String.mk (List.replicate n 'x'), w + 1),
    isValidUsername := fun name => alphaNumericRegexp.MatchString name,
    normalizeUserFlags := fun flags => .ok flags,
    sqlOpen := fun c => (.ok 1, c.world),
    dbPing := fun _ w => (none, w),
    dbClose := fun _ w => (none, w),
    dbQueryDatabases := fun _ w => (.ok { scans := [], closeErr := none }, w),
    dbQueryUsers := fun _ _ w => (.ok { scans := [], closeErr := none }, w),
    dbQueryStatement := fun _ _ w => (none, w) }

/-- A sample execution state: the sample cluster, no call made yet. -/
def sampleExec : Exec :=
  { c := sampleCluster (some (sampleStatefulSet 2 [sampleContainer])), calls := [] }

/-- Sample teardown collaborators: a step fails, with its own name as the error and
without effect, when `fails` says so, and otherwise removes what it deletes. -/
def teardownOps (fails : Call → Bool) : Ops :=
  { sampleOps with
    deleteEndpoint := fun c =>
      if fails .deleteEndpoint = true then (some "endpoint", c)
      else (none, { c with Endpoint := none }),
    deleteService := fun c =>
      if fails .deleteService = true then (some "service", c)
      else (none, { c with Service := none }),
    deleteStatefulSet := fun c =>
      if fails .deleteStatefulSet = true then (some "statefulset", c)
      else (none, { c with Statefulset := none }),
    deleteSecret := fun secret c =>
      if fails (.deleteSecret secret) = true then (some "secret", c)
      else (none, { c with Secrets := c.Secrets.filter (fun e => decide (e.2 ≠ secret)) }),
    deletePods := fun c =>
      if fails .deletePods = true then (some "pods", c) else (none, c),
    deletePersistenVolumeClaims := fun c =>
      if fails .deletePersistenVolumeClaims = true then (some "claims", c) else (none, c) }

/-- A sample secret with the given name. -/
def sampleSecret (name : String) : Secret :=
  { ObjectMeta := { Name := name, Namespace := "default", ResourceVersion := "1" },
    Data := [("username", name)] }

/-- A sample execution state whose cluster stores two secrets. -/
def sampleExecWithSecrets : Exec :=
  { c := { sampleCluster (some (sampleStatefulSet 2 [sampleContainer])) with
           Secrets := [("uid-1", sampleSecret "postgres"), ("uid-2", sampleSecret "replication")] },
    calls := [] }

/-- Sample collaborators whose readiness wait fails. -/
def readinessFailsOps : Ops :=
  { sampleOps with waitStatefulsetPodsReady := fun c => (some "timeout", c) }

/-- Sample collaborators whose creation of the workload descriptor fails. -/
def statefulSetFailsOps : Ops :=
  { sampleOps with createStatefulSet := fun c => (.error "quota", c) }

/-- A sample declarative record with one declared robot user. -/
def samplePostgresql : Postgresql :=
  { Metadata := sampleMeta, Spec := { sampleSpec with Users := [("robot", ["LOGIN"])] } }

/-- A sample execution state on a freshly constructed cluster. -/
def sampleFreshExec : Exec := { c := New 0 samplePostgresql, calls := [] }

/-- A sample execution state whose cluster declares the given databases and holds the
given role names, with no connection cached. -/
def sampleDbExec (databases : GoMap String) (roles : List String) : Exec :=
  { c := { sampleCluster (some (sampleStatefulSet 2 [sampleContainer])) with
           Spec := { sampleSpec with Databases := databases },
           pgUsers := roles.map (fun name => (name, { Name := name })) },
    calls := [] }

/-- Sample collaborators whose live catalog holds the given databases. -/
def catalogOps (catalog : List (String × String)) : Ops :=
  { sampleOps with
    dbQueryDatabases := fun _ w => (.ok { scans := catalog.map .ok, closeErr := none }, w) }

/-- Sample collaborators whose role query returns one row that fails to scan and
whose cursor fails to close. -/
def scanAndCloseFailOps : Ops :=
  { sampleOps with
    dbQueryUsers := fun _ _ w =>
      (.ok { scans := [.error "bad row"], closeErr := some "cursor gone" }, w),
    dbQueryDatabases := fun _ w =>
      (.ok { scans := [.error "bad row"], closeErr := some "cursor gone" }, w) }

/-- Sample collaborators whose team has the one member "john.doe". -/
def dottedMemberOps : Ops :=
  { sampleOps with getTeamMembers := fun c => (.ok ["john.doe"], c) }

/-! ## Properties of the diffing -/

/-- C1: when both descriptors have the same non-zero number of containers and their
first containers differ in image, ports, resources or environment, the comparison
returns equal=false and needsRollUpdate=true, whatever the two replica counts. -/
theorem compareStatefulSetWith_first_container_differs
    (c : Cluster) (cur new : StatefulSet) (r1 r2 : Int)
    (container1 container2 : Container) (rest1 rest2 : List Container)
    (hcur : c.Statefulset = some cur)
    (hr1 : cur.Spec.Replicas = some r1) (hr2 : new.Spec.Replicas = some r2)
    (hc1 : cur.Spec.Template.Spec.Containers = container1 :: rest1)
    (hc2 : new.Spec.Template.Spec.Containers = container2 :: rest2)
    (hlen : rest1.length = rest2.length)
    (hdiff : container1.Image ≠ container2.Image ∨ container1.Ports ≠ container2.Ports ∨
      deepEqualResources container1.Resources container2.Resources = false ∨
      container1.Env ≠ container2.Env) :
    compareStatefulSetWith c (some new) = some (false, true) := by
  simp only [compareStatefulSetWith, hcur, hr1, hr2, hc1, hc2, List.length_cons, hlen]
  by_cases hi : container1.Image = container2.Image
  · by_cases hp : container1.Ports = container2.Ports
    · by_cases hr : deepEqualResources container1.Resources container2.Resources = true
      · by_cases he : container1.Env = container2.Env
        · rcases hdiff with h | h | h | h
          · exact absurd hi h
          · exact absurd hp h
          · rw [hr] at h; exact absurd h (by decide)
          · exact absurd he h
        · simp [hi, hp, hr, he]
      · simp [hi, hp, hr]
    · simp [hi, hp]
  · simp [hi]

/-- Witness of C1: descriptors identical except the image (and with different replica
counts), and descriptors identical except one added environment variable. -/
theorem compareStatefulSetWith_first_container_differs_witness :
    compareStatefulSetWith (sampleCluster (some (sampleStatefulSet 2 [sampleContainer])))
        (some (sampleStatefulSet 3 [{ sampleContainer with Image := "spilo:1.1" }]))
      = some (false, true) ∧
    compareStatefulSetWith (sampleCluster (some (sampleStatefulSet 2 [sampleContainer])))
        (some (sampleStatefulSet 2 [{ sampleContainer with
          Env := some [{ Name := "SCOPE", Value := "acid-test", ValueFrom := none },
                       { Name := "PGVERSION", Value := "9.6", ValueFrom := none }] }]))
      = some (false, true) :=
  ⟨compareStatefulSetWith_first_container_differs _ _ _ 2 3 sampleContainer
      { sampleContainer with Image := "spilo:1.1" } [] [] rfl rfl rfl rfl rfl rfl
      (Or.inl (by decide)),
   compareStatefulSetWith_first_container_differs _ _ _ 2 2 sampleContainer
      { sampleContainer with
          Env := some [{ Name := "SCOPE", Value := "acid-test", ValueFrom := none },
                       { Name := "PGVERSION", Value := "9.6", ValueFrom := none }] }
      [] [] rfl rfl rfl rfl rfl rfl
      (Or.inr (Or.inr (Or.inr (by decide))))⟩

/-- C3, as stated, fails: with an empty observed container list and a desired
descriptor that has one container the comparison returns (false, true), and with both
container lists empty but different replica counts it returns (false, false). -/
theorem compareStatefulSetWith_empty_observed_counterexample :
    (sampleStatefulSet 2 []).Spec.Template.Spec.Containers = [] ∧
    compareStatefulSetWith (sampleCluster (some (sampleStatefulSet 2 [])))
        (some (sampleStatefulSet 2 [sampleContainer])) = some (false, true) ∧
    compareStatefulSetWith (sampleCluster (some (sampleStatefulSet 2 [])))
        (some (sampleStatefulSet 3 [])) = some (false, false) := by
  refine ⟨rfl, ?_, ?_⟩ <;> decide

/-- C3, amended: when the observed descriptor has an empty container list, the
comparison returns needsRollUpdate=false and equal exactly when the replica counts are
equal if the desired list is empty too, and (false, true) if the desired list is not
empty. -/
theorem compareStatefulSetWith_empty_observed
    (c : Cluster) (cur new : StatefulSet) (r1 r2 : Int)
    (hcur : c.Statefulset = some cur)
    (hr1 : cur.Spec.Replicas = some r1) (hr2 : new.Spec.Replicas = some r2)
    (hempty : cur.Spec.Template.Spec.Containers = []) :
    compareStatefulSetWith c (some new) =
      if new.Spec.Template.Spec.Containers = [] then some (decide (r1 = r2), false)
      else some (false, true) := by
  simp only [compareStatefulSetWith, hcur, hr1, hr2, hempty, List.length_nil]
  cases hn : new.Spec.Template.Spec.Containers with
  | nil => by_cases hr : r1 = r2 <;> simp [hr]
  | cons a l => simp

/-- Witness of amended C3: both container lists empty and equal replica counts give
(true, false). -/
theorem compareStatefulSetWith_empty_observed_witness :
    compareStatefulSetWith (sampleCluster (some (sampleStatefulSet 2 [])))
        (some (sampleStatefulSet 2 [])) = some (true, false) :=
  compareStatefulSetWith_empty_observed _ (sampleStatefulSet 2 []) (sampleStatefulSet 2 [])
    2 2 rfl rfl rfl rfl

/-! ## Properties of the lifecycle -/

/-- C4: when the new record differs from the current one in the engine version while
the allowed source ranges, the volume, the resources and the regenerated workload
descriptor compare equal, `Update` returns no error, calls no collaborator (so none
of `updateService`, `updateStatefulSet`, `recreatePods`) and leaves the cluster, and
with it the recorded engine version, unchanged. -/
theorem Update_version_change_refused (ops : Ops) (newSpec : Postgresql) (s : Exec)
    (_hversion : s.c.Spec.PgVersion ≠ newSpec.Spec.PgVersion)
    (hservice : sameServiceWith s.c
      (ops.Service s.c.ClusterName s.c.TeamName newSpec.Spec.AllowedSourceRanges) = some true)
    (_hvolume : sameVolumeWith s.c newSpec.Spec.Volume = true)
    (hresources : s.c.Spec.Resources = newSpec.Spec.Resources)
    (hstatefulset : compareStatefulSetWith s.c
      (ops.genStatefulSet s.c.ClusterName newSpec.Spec s.c.etcdHost s.c.dockerImage)
        = some (true, false)) :
    Update ops newSpec s = (.returned none, s) ∧
    (Update ops newSpec s).2.calls = s.calls ∧
    (Update ops newSpec s).2.c.Spec.PgVersion = s.c.Spec.PgVersion := by
  have key : Update ops newSpec s = (.returned none, s) := by
    unfold Update
    cases hsvc : ops.Service s.c.ClusterName s.c.TeamName newSpec.Spec.AllowedSourceRanges with
    | none => rw [hsvc] at hservice; simp [sameServiceWith] at hservice
    | some service =>
      rw [hsvc] at hservice
      cases hgen : ops.genStatefulSet s.c.ClusterName newSpec.Spec s.c.etcdHost s.c.dockerImage with
      | none => rw [hgen] at hstatefulset; simp [compareStatefulSetWith] at hstatefulset
      | some statefulSet =>
        rw [hgen] at hstatefulset
        simp [hservice, hstatefulset, hgen, hresources]
  rw [key]
  exact ⟨rfl, rfl, rfl⟩

/-- Witness of C4: the sample cluster and a new record that asks for another engine
version and is otherwise the current one. -/
theorem Update_version_change_refused_witness :
    Update sampleOps { Metadata := sampleMeta, Spec := { sampleSpec with PgVersion := "10" } }
        sampleExec = (.returned none, sampleExec) ∧
    (Update sampleOps { Metadata := sampleMeta, Spec := { sampleSpec with PgVersion := "10" } }
        sampleExec).2.calls = sampleExec.calls ∧
    (Update sampleOps { Metadata := sampleMeta, Spec := { sampleSpec with PgVersion := "10" } }
        sampleExec).2.c.Spec.PgVersion = sampleExec.c.Spec.PgVersion :=
  Update_version_change_refused sampleOps
    { Metadata := sampleMeta, Spec := { sampleSpec with PgVersion := "10" } } sampleExec
    (by decide) (by decide) (by decide) (by decide) (by decide)

/-- A key bound in a map with distinct keys is looked up to its value. -/
theorem GoMap.get?_of_mem {V : Type} (m : GoMap V) (hkeys : (GoMap.keys m).Nodup)
    (k : String) (v : V) (hmem : (k, v) ∈ m) : GoMap.get? m k = some v := by
  induction m with
  | nil => simp at hmem
  | cons e rest ih =>
    obtain ⟨k', v'⟩ := e
    simp only [GoMap.keys, List.map_cons, List.nodup_cons] at hkeys
    rcases List.mem_cons.mp hmem with h | h
    · cases h
      simp [GoMap.get?]
    · have hne : k' ≠ k := by
        intro heq
        apply hkeys.1
        rw [heq]
        exact List.mem_map.mpr ⟨(k, v), h, rfl⟩
      simp only [GoMap.get?, hne, if_false]
      exact ih hkeys.2 h

/-- The secrets loop of `Delete` makes the attempts on every stored secret, in order,
when deleting a secret keeps the entries of the other secrets. -/
theorem deleteSecretsLoop_eq (ops : Ops)
    (hframe : ∀ obj c k, GoMap.get? c.Secrets k ≠ some obj →
      GoMap.get? (ops.deleteSecret obj c).2.Secrets k = GoMap.get? c.Secrets k)
    (l : GoMap Secret) (hvals : (l.map Prod.snd).Nodup) :
    ∀ s : Exec, (∀ e ∈ l, GoMap.get? s.c.Secrets e.1 = some e.2) →
      deleteSecretsLoop ops (GoMap.keys l) s =
        { c := (attemptEverySecret ops (l.map Prod.snd) s.c).1,
          calls := s.calls ++ (attemptEverySecret ops (l.map Prod.snd) s.c).2 } := by
  induction l with
  | nil => intro s _; simp [GoMap.keys, deleteSecretsLoop, attemptEverySecret]
  | cons e rest ih =>
    intro s hs
    obtain ⟨k, obj⟩ := e
    simp only [List.map_cons, List.nodup_cons] at hvals
    have hk : GoMap.get? s.c.Secrets k = some obj := hs (k, obj) (List.mem_cons_self _ _)
    have hnext : ∀ e ∈ rest,
        GoMap.get? (s.call (.deleteSecret obj) (ops.deleteSecret obj)).2.c.Secrets e.1
          = some e.2 := by
      intro e he
      have hne : GoMap.get? s.c.Secrets e.1 ≠ some obj := by
        rw [hs e (List.mem_cons_of_mem _ he)]
        intro heq
        apply hvals.1
        have : e.2 = obj := Option.some.inj heq
        rw [← this]
        exact List.mem_map.mpr ⟨e, he, rfl⟩
      show GoMap.get? (ops.deleteSecret obj s.c).2.Secrets e.1 = some e.2
      rw [hframe obj s.c e.1 hne]
      exact hs e (List.mem_cons_of_mem _ he)
    have hrest := ih hvals.2 _ hnext
    simp only [GoMap.keys] at hrest
    simp only [GoMap.keys, List.map_cons, deleteSecretsLoop, hk, hrest, attemptEverySecret]
    simp [Exec.call]

/-- The attempts on a list of secrets are calls of `deleteSecret` on them, in order. -/
theorem attemptEverySecret_calls (ops : Ops) (l : List Secret) :
    ∀ c : Cluster,
      (attemptEverySecret ops l c).2.map CallRecord.call = l.map Call.deleteSecret := by
  induction l with
  | nil => intro c; rfl
  | cons obj rest ih => intro c; simp [attemptEverySecret, ih]

/-- Removing the entries that hold one value keeps the lookups that find another. -/
theorem GoMap.get?_filter_value {V : Type} [DecidableEq V] (m : GoMap V) (v : V) (k : String)
    (h : GoMap.get? m k ≠ some v) :
    GoMap.get? (m.filter (fun e => decide (e.2 ≠ v))) k = GoMap.get? m k := by
  induction m with
  | nil => rfl
  | cons e rest ih =>
    obtain ⟨k', v'⟩ := e
    by_cases hv : v' = v
    · rw [List.filter_cons_of_neg (by simp [hv])]
      have hk : k' ≠ k := by
        intro heq
        apply h
        simp [GoMap.get?, heq, hv]
      have hrest : GoMap.get? rest k ≠ some v := by
        simpa [GoMap.get?, hk] using h
      rw [ih hrest]
      simp [GoMap.get?, hk]
    · rw [List.filter_cons_of_pos (by simp [hv])]
      by_cases hk : k' = k
      · simp [GoMap.get?, hk]
      · have hrest : GoMap.get? rest k ≠ some v := by
          simpa [GoMap.get?, hk] using h
        simp only [GoMap.get?, hk, if_false]
        exact ih hrest

/-- The result of a recorded call is the result of the collaborator. -/
theorem Exec.call_fst (s : Exec) (k : Call) (f : Cluster → Option String × Cluster) :
    (s.call k f).1 = (f s.c).1 := rfl

/-- The cluster after a recorded call is the cluster that the collaborator leaves. -/
theorem Exec.call_snd_c (s : Exec) (k : Call) (f : Cluster → Option String × Cluster) :
    (s.call k f).2.c = (f s.c).2 := rfl

/-- A recorded call adds one record, with the error that the collaborator returned. -/
theorem Exec.call_snd_calls (s : Exec) (k : Call) (f : Cluster → Option String × Cluster) :
    (s.call k f).2.calls = s.calls ++ [{ call := k, err := (f s.c).1 }] := rfl

/-- C5: on a cluster whose endpoint, service and workload descriptor are populated,
whatever the teardown steps return, `Delete` calls `deleteEndpoint`, `deleteService`,
`deleteStatefulSet`, `deleteSecret` on every stored secret, `deletePods` and
`deletePersistenVolumeClaims`, in this order and each on the cluster that the step
before has left; it records each call with the error that the collaborator returned,
leaves the cluster that the last step leaves, and returns an error exactly when
`deletePersistenVolumeClaims` returned one (that error, under the message of the
source). -/
theorem Delete_attempts_every_step (ops : Ops) (s : Exec)
    (ep : Endpoints) (svc : Service) (ss : StatefulSet)
    (hep : s.c.Endpoint = some ep) (hsvc : s.c.Service = some svc)
    (hss : s.c.Statefulset = some ss)
    (hkeys : (GoMap.keys s.c.Secrets).Nodup)
    (hvals : (s.c.Secrets.map Prod.snd).Nodup)
    (hframe : ops.teardownFrame) :
    let r1 := ops.deleteEndpoint s.c
    let r2 := ops.deleteService r1.2
    let r3 := ops.deleteStatefulSet r2.2
    let r4 := attemptEverySecret ops (s.c.Secrets.map Prod.snd) r3.2
    let r5 := ops.deletePods r4.1
    let r6 := ops.deletePersistenVolumeClaims r5.2
    Delete ops s =
      (Outcome.returned (r6.1.map (fun e => "Can't delete PersistentVolumeClaims: " ++ e)),
       { c := r6.2,
         calls := s.calls ++
           [{ call := Call.deleteEndpoint, err := r1.1 },
            { call := Call.deleteService, err := r2.1 },
            { call := Call.deleteStatefulSet, err := r3.1 }] ++
           r4.2 ++
           [{ call := Call.deletePods, err := r5.1 },
            { call := Call.deletePersistenVolumeClaims, err := r6.1 }] }) ∧
    r4.2.map CallRecord.call = s.c.Secrets.map (fun e => Call.deleteSecret e.2) := by
  intro r1 r2 r3 r4 r5 r6
  obtain ⟨hfEp, hfSvc, hfSs, hfSecret⟩ := hframe
  have hsvc1 : (ops.deleteEndpoint s.c).2.Service = some svc := by rw [(hfEp s.c).1, hsvc]
  have hss1 : (ops.deleteService (ops.deleteEndpoint s.c).2).2.Statefulset = some ss := by
    rw [(hfSvc _).1, (hfEp s.c).2.1, hss]
  have hsec : (ops.deleteStatefulSet (ops.deleteService (ops.deleteEndpoint s.c).2).2).2.Secrets
      = s.c.Secrets := by
    rw [hfSs, (hfSvc _).2, (hfEp s.c).2.2]
  have hloop := deleteSecretsLoop_eq ops hfSecret s.c.Secrets hvals
    (((s.call .deleteEndpoint ops.deleteEndpoint).2.call .deleteService ops.deleteService).2.call
      .deleteStatefulSet ops.deleteStatefulSet).2
    (fun e he => by
      show GoMap.get? (ops.deleteStatefulSet
        (ops.deleteService (ops.deleteEndpoint s.c).2).2).2.Secrets e.1 = some e.2
      rw [hsec]
      exact GoMap.get?_of_mem s.c.Secrets hkeys e.1 e.2 he)
  refine ⟨?_, ?_⟩
  · unfold Delete
    simp only [hep, Exec.call_snd_c, hsvc1, hss1, hsec, hloop]
    simp only [Exec.call_fst, Exec.call_snd_c, Exec.call_snd_calls]
    cases h : (ops.deletePersistenVolumeClaims (ops.deletePods
        (attemptEverySecret ops (s.c.Secrets.map Prod.snd)
          (ops.deleteStatefulSet (ops.deleteService (ops.deleteEndpoint s.c).2).2).2).1).2).1 <;>
      simp [r1, r2, r3, r4, r5, r6, h, Exec.call]
  · have := attemptEverySecret_calls ops (s.c.Secrets.map Prod.snd) r3.2
    simpa [List.map_map, Function.comp] using this

/-- The sample teardown collaborators keep what `Delete` reads after them. -/
theorem teardownOps_teardownFrame (fails : Call → Bool) : (teardownOps fails).teardownFrame := by
  refine ⟨?_, ?_, ?_, ?_⟩
  · intro c
    simp only [teardownOps]
    split <;> exact ⟨rfl, rfl, rfl⟩
  · intro c
    simp only [teardownOps]
    split <;> exact ⟨rfl, rfl⟩
  · intro c
    simp only [teardownOps]
    split <;> rfl
  · intro obj c k h
    simp only [teardownOps]
    split
    · rfl
    · exact GoMap.get?_filter_value c.Secrets obj k h

/-- Witness of C5: on the sample cluster with two secrets, when every step but the
last fails, all seven calls are made, each recorded with its error, the cluster is
left as it was and `Delete` returns no error; when only the last step fails, the
earlier steps remove what they delete and `Delete` returns the error of the last. -/
theorem Delete_attempts_every_step_witness :
    Delete (teardownOps (fun k => decide (k ≠ Call.deletePersistenVolumeClaims)))
        sampleExecWithSecrets
      = (Outcome.returned none,
         { c := sampleExecWithSecrets.c,
           calls :=
             [{ call := Call.deleteEndpoint, err := some "endpoint" },
              { call := Call.deleteService, err := some "service" },
              { call := Call.deleteStatefulSet, err := some "statefulset" },
              { call := Call.deleteSecret (sampleSecret "postgres"), err := some "secret" },
              { call := Call.deleteSecret (sampleSecret "replication"), err := some "secret" },
              { call := Call.deletePods, err := some "pods" },
              { call := Call.deletePersistenVolumeClaims, err := none }] }) ∧
    Delete (teardownOps (fun k => decide (k = Call.deletePersistenVolumeClaims)))
        sampleExecWithSecrets
      = (Outcome.returned (some "Can't delete PersistentVolumeClaims: claims"),
         { c := { sampleExecWithSecrets.c with
                  Endpoint := none, Service := none, Statefulset := none, Secrets := [] },
           calls :=
             [{ call := Call.deleteEndpoint, err := none },
              { call := Call.deleteService, err := none },
              { call := Call.deleteStatefulSet, err := none },
              { call := Call.deleteSecret (sampleSecret "postgres"), err := none },
              { call := Call.deleteSecret (sampleSecret "replication"), err := none },
              { call := Call.deletePods, err := none },
              { call := Call.deletePersistenVolumeClaims, err := some "claims" }] }) := by
  have h1 := (Delete_attempts_every_step
    (teardownOps (fun k => decide (k ≠ Call.deletePersistenVolumeClaims)))
    sampleExecWithSecrets { ObjectMeta := sampleMeta } _ _ rfl rfl rfl (by decide) (by decide)
    (teardownOps_teardownFrame _)).1
  have h2 := (Delete_attempts_every_step
    (teardownOps (fun k => decide (k = Call.deletePersistenVolumeClaims)))
    sampleExecWithSecrets { ObjectMeta := sampleMeta } _ _ rfl rfl rfl (by decide) (by decide)
    (teardownOps_teardownFrame _)).1
  refine ⟨?_, ?_⟩
  · rw [h1]; decide
  · rw [h2]; decide

/-- The method `Create` is the run of its steps, in order, up to the first failure. -/
theorem Create_eq_runSteps (K : Constants) (ops : Ops) (s : Exec) :
    Create K ops s = runSteps (createSteps K ops) s := by
  unfold Create
  simp only [createSteps, runSteps]
  repeat' split
  all_goals simp_all [errOf]

/-- A run of steps whose first failure is at `step` returns the error of `step`, turned
by it, and the state as `step` left it. -/
theorem runSteps_first_failure (pre : List Step) (step : Step) (post : List Step) :
    ∀ (s s' : Exec) (e : String), succeedAll pre s = some s' → (step.run s').1 = some e →
      runSteps (pre ++ step :: post) s = (some (step.wrap e), (step.run s').2) := by
  induction pre with
  | nil =>
    intro s s' e hpre hfail
    simp only [succeedAll, Option.some.injEq] at hpre
    subst hpre
    simp [runSteps, hfail]
  | cons st rest ih =>
    intro s s' e hpre hfail
    simp only [succeedAll] at hpre
    cases hst : (st.run s).1 with
    | some err => simp [hst] at hpre
    | none =>
      simp only [hst] at hpre
      simp only [List.cons_append, runSteps, hst]
      exact ih _ _ _ hpre hfail

/-- A run of steps that returns no error has run every step with success. -/
theorem runSteps_success (steps : List Step) :
    ∀ s : Exec, (runSteps steps s).1 = none → succeedAll steps s = some (runSteps steps s).2 := by
  induction steps with
  | nil => intro s _; rfl
  | cons st rest ih =>
    intro s h
    cases hst : (st.run s).1 with
    | some err => simp [runSteps, hst] at h
    | none =>
      simp only [runSteps, hst] at h
      simp only [runSteps, succeedAll, hst]
      exact ih _ h

/-- C6, amended: whichever step of `Create` is the first to fail, `Create` returns that
step's error under the message of that step (for the readiness wait: the step's error
as it is), and the state is the one that step left, so no later step has run and
nothing has been undone; and `Create` returns no error only when every step
succeeded. -/
theorem Create_aborts_at_first_failure (K : Constants) (ops : Ops) (s : Exec) :
    (∀ e : String, (createSteps K ops).map (fun st => (st.name, st.wrap e)) =
      [("createEndpoint", "Can't create Endpoint: " ++ e),
       ("createService", "Can't create Service: " ++ e),
       ("initSystemUsers", e),
       ("initRobotUsers", "Can't init robot users: " ++ e),
       ("initHumanUsers", "Can't init human users: " ++ e),
       ("applySecrets", "Can't create Secrets: " ++ e),
       ("createStatefulSet", "Can't create StatefulSet: " ++ e),
       ("waitStatefulsetPodsReady", e),
       ("initDbConn", "Can't init db connection: " ++ e),
       ("createUsers", "Can't create users: " ++ e),
       ("ListResources", e)]) ∧
    (∀ (pre : List Step) (step : Step) (post : List Step) (s' : Exec) (e : String),
      createSteps K ops = pre ++ step :: post → succeedAll pre s = some s' →
      (step.run s').1 = some e →
      Create K ops s = (some (step.wrap e), (step.run s').2)) ∧
    ((Create K ops s).1 = none →
      succeedAll (createSteps K ops) s = some (Create K ops s).2) := by
  refine ⟨fun e => rfl, ?_, ?_⟩
  · intro pre step post s' e hsplit hpre hfail
    rw [Create_eq_runSteps, hsplit]
    exact runSteps_first_failure pre step post s s' e hpre hfail
  · intro h
    rw [Create_eq_runSteps] at h ⊢
    exact runSteps_success _ s h

/-- C6, as stated, fails at the readiness wait: when that step is the first to fail,
with the error "timeout", `Create` returns "timeout" itself, with no message that
names the step. -/
theorem Create_readiness_failure_counterexample :
    (readinessFailsOps.waitStatefulsetPodsReady sampleFreshExec.c).1 = some "timeout" ∧
    (Create sampleConstants readinessFailsOps sampleFreshExec).1 = some "timeout" ∧
    (Create sampleConstants readinessFailsOps sampleFreshExec).2.calls.map CallRecord.call =
      [Call.createEndpoint, Call.createService, Call.getTeamMembers, Call.applySecrets,
       Call.createStatefulSet, Call.waitStatefulsetPodsReady] := by
  refine ⟨rfl, ?_, ?_⟩ <;> decide

/-- Witness of amended C6: with a workload-descriptor creation that fails with "quota"
after six successful steps, `Create` returns that error under the message of the step,
and the calls made end with the failed one. -/
theorem Create_aborts_at_first_failure_witness :
    (Create sampleConstants statefulSetFailsOps sampleFreshExec).1
      = some "Can't create StatefulSet: quota" ∧
    (Create sampleConstants statefulSetFailsOps sampleFreshExec).2.calls.map CallRecord.call =
      [Call.createEndpoint, Call.createService, Call.getTeamMembers, Call.applySecrets,
       Call.createStatefulSet] := by
  have h := (Create_aborts_at_first_failure sampleConstants statefulSetFailsOps
    sampleFreshExec).2.1
    ((createSteps sampleConstants statefulSetFailsOps).take 6)
    { name := "createStatefulSet", wrap := fun err => "Can't create StatefulSet: " ++ err,
      run := fun s => (errOf (s.callGet .createStatefulSet
                          statefulSetFailsOps.createStatefulSet).1,
                       (s.callGet .createStatefulSet statefulSetFailsOps.createStatefulSet).2) }
    ((createSteps sampleConstants statefulSetFailsOps).drop 7)
    ((succeedAll ((createSteps sampleConstants statefulSetFailsOps).take 6)
      sampleFreshExec).get (by decide))
    "quota" rfl (by simp) (by decide)
  rw [h]
  constructor
  · rfl
  · decide

/-! ## Properties of the role seeding -/

/-- Looking up the key just assigned finds the assigned value. -/
theorem GoMap.get?_set_self {V : Type} (m : GoMap V) (k : String) (v : V) :
    GoMap.get? (GoMap.set m k v) k = some v := by
  unfold GoMap.set GoMap.delete
  induction m with
  | nil => simp [GoMap.get?]
  | cons e rest ih =>
    obtain ⟨k', v'⟩ := e
    by_cases hk : k' = k
    · rw [List.filter_cons_of_neg (by simp [hk])]
      exact ih
    · rw [List.filter_cons_of_pos (by simp [hk])]
      simp only [List.cons_append, GoMap.get?, hk, if_false]
      exact ih

/-- Looking up another key than the one just assigned finds what it found before. -/
theorem GoMap.get?_set_other {V : Type} (m : GoMap V) (k k' : String) (v : V) (h : k' ≠ k) :
    GoMap.get? (GoMap.set m k v) k' = GoMap.get? m k' := by
  unfold GoMap.set GoMap.delete
  induction m with
  | nil => simp [GoMap.get?, Ne.symm h]
  | cons e rest ih =>
    obtain ⟨k₀, v₀⟩ := e
    by_cases hk : k₀ = k
    · rw [List.filter_cons_of_neg (by simp [hk])]
      have : k₀ ≠ k' := by rw [hk]; exact Ne.symm h
      simp only [GoMap.get?, this, if_false]
      exact ih
    · rw [List.filter_cons_of_pos (by simp [hk])]
      by_cases hk' : k₀ = k'
      · simp [GoMap.get?, hk']
      · simp only [List.cons_append, GoMap.get?, hk', if_false]
        exact ih

/-- A key is bound after an assignment when it is the assigned key or was bound. -/
theorem GoMap.contains_set {V : Type} (m : GoMap V) (k k' : String) (v : V) :
    GoMap.contains (GoMap.set m k v) k' = true ↔ k' = k ∨ GoMap.contains m k' = true := by
  unfold GoMap.contains
  by_cases h : k' = k
  · subst h
    simp [GoMap.get?_set_self]
  · rw [GoMap.get?_set_other m k k' v h]
    simp [h]

/-- A key is bound exactly when it is among the keys. -/
theorem GoMap.contains_iff_mem_keys {V : Type} (m : GoMap V) (k : String) :
    GoMap.contains m k = true ↔ k ∈ GoMap.keys m := by
  unfold GoMap.contains GoMap.keys
  induction m with
  | nil => simp [GoMap.get?]
  | cons e rest ih =>
    obtain ⟨k', v'⟩ := e
    by_cases hk : k' = k
    · simp [GoMap.get?, hk]
    · simp only [GoMap.get?, hk, if_false, List.map_cons, List.mem_cons]
      rw [ih]
      constructor
      · exact Or.inr
      · rintro (h | h)
        · exact absurd h.symm hk
        · exact h

/-- The loop of `initHumanUsers` binds every member to the role that has the
member's name and nothing else. -/
theorem initHumanUsersLoop_get? (members : List String) :
    ∀ (c : Cluster) (name : String),
      GoMap.get? (initHumanUsersLoop members c).pgUsers name =
        if name ∈ members then some { Name := name } else GoMap.get? c.pgUsers name := by
  induction members with
  | nil => intro c name; simp [initHumanUsersLoop]
  | cons u rest ih =>
    intro c name
    simp only [initHumanUsersLoop]
    rw [ih]
    by_cases hr : name ∈ rest
    · simp [hr]
    · by_cases hu : name = u
      · subst hu
        simp [hr, GoMap.get?_set_self]
      · simp [hr, hu, GoMap.get?_set_other _ _ _ _ hu]

/-- The loop of `initHumanUsers` changes the role map only. -/
theorem initHumanUsersLoop_frame (members : List String) :
    ∀ c : Cluster, (initHumanUsersLoop members c).Spec = c.Spec := by
  induction members with
  | nil => intro c; rfl
  | cons u rest ih => intro c; simp only [initHumanUsersLoop]; rw [ih]

/-- C8, as stated, fails: the role that `initHumanUsers` stores for the team member
"alice" has an empty flag list, not the list that holds the login flag. -/
theorem initHumanUsers_flags_counterexample :
    (sampleOps.getTeamMembers sampleExec.c).1 = .ok ["alice"] ∧
    GoMap.get? (initHumanUsers sampleOps sampleExec).2.c.pgUsers "alice"
      = some { Name := "alice", Password := "", Flags := [], MemberOf := [] } ∧
    (GoMap.get? (initHumanUsers sampleOps sampleExec).2.c.pgUsers "alice").map PgUser.Flags
      ≠ some [sampleConstants.RoleFlagLogin] := by
  refine ⟨rfl, ?_, ?_⟩ <;> decide

/-- C8, amended: for every list of team members that the lookup returns,
`initHumanUsers` succeeds and stores under each member's name the role that has that
name, an empty password, an empty flag list and no group membership. -/
theorem initHumanUsers_entries (ops : Ops) (s : Exec) (teamMembers : List String)
    (hteam : (ops.getTeamMembers s.c).1 = .ok teamMembers) :
    (initHumanUsers ops s).1 = none ∧
    ∀ name ∈ teamMembers,
      GoMap.get? (initHumanUsers ops s).2.c.pgUsers name
        = some { Name := name, Password := "", Flags := [], MemberOf := [] } := by
  have hrun : initHumanUsers ops s =
      (none, { (s.callGet .getTeamMembers ops.getTeamMembers).2 with
        c := initHumanUsersLoop teamMembers
          (s.callGet .getTeamMembers ops.getTeamMembers).2.c }) := by
    unfold initHumanUsers
    have : (s.callGet .getTeamMembers ops.getTeamMembers).1 = .ok teamMembers := hteam
    simp only [this]
  rw [hrun]
  refine ⟨rfl, ?_⟩
  intro name hname
  simp only [initHumanUsersLoop_get?, hname, if_true]

/-- Witness of amended C8: the sample team has the one member "alice". -/
theorem initHumanUsers_entries_witness :
    (initHumanUsers sampleOps sampleExec).1 = none ∧
    ∀ name ∈ ["alice"],
      GoMap.get? (initHumanUsers sampleOps sampleExec).2.c.pgUsers name
        = some { Name := name, Password := "", Flags := [], MemberOf := [] } :=
  initHumanUsers_entries sampleOps sampleExec ["alice"] rfl

/-- An assignment keeps the keys of a map distinct. -/
theorem GoMap.keys_set_nodup {V : Type} (m : GoMap V) (k : String) (v : V)
    (h : (GoMap.keys m).Nodup) : (GoMap.keys (GoMap.set m k v)).Nodup := by
  unfold GoMap.set GoMap.delete GoMap.keys at *
  rw [List.map_append, List.nodup_append]
  refine ⟨(h.sublist (List.Sublist.map _ (List.filter_sublist _))), by simp, ?_⟩
  intro a ha hb
  simp only [List.map_cons, List.map_nil, List.mem_singleton] at hb
  subst hb
  obtain ⟨e, he, rfl⟩ := List.mem_map.mp ha
  simpa using (List.mem_filter.mp he).2

/-- The loop of `initRobotUsers` keeps the declared spec, keeps the keys of the role
map distinct and, when it succeeds, binds the declared names on top of the names
bound before. -/
theorem initRobotUsersLoop_spec (ops : Ops) (users : List (String × List String)) :
    ∀ c : Cluster,
      (initRobotUsersLoop ops users c).2.Spec = c.Spec ∧
      ((GoMap.keys c.pgUsers).Nodup →
        (GoMap.keys (initRobotUsersLoop ops users c).2.pgUsers).Nodup) ∧
      ((initRobotUsersLoop ops users c).1 = none →
        ∀ name, GoMap.contains (initRobotUsersLoop ops users c).2.pgUsers name = true ↔
          name ∈ GoMap.keys users ∨ GoMap.contains c.pgUsers name = true) := by
  induction users with
  | nil =>
    intro c
    refine ⟨rfl, fun h => h, fun _ name => ?_⟩
    simp [initRobotUsersLoop, GoMap.keys]
  | cons e rest ih =>
    intro c
    obtain ⟨username, userFlags⟩ := e
    by_cases hvalid : ops.isValidUsername username = true
    · cases hnorm : ops.normalizeUserFlags userFlags with
      | error err =>
        simp [initRobotUsersLoop, hvalid, hnorm]
      | ok flags =>
        simp only [initRobotUsersLoop, hvalid, hnorm, not_true_eq_false, if_false]
        obtain ⟨hspec, hnodup, hkeys⟩ := ih { c with
          world := (ops.RandomPassword PasswordLength c.world).2,
          pgUsers := c.pgUsers.set username
            { Name := username, Password := (ops.RandomPassword PasswordLength c.world).1,
              Flags := flags } }
        refine ⟨hspec, fun h => hnodup (GoMap.keys_set_nodup _ _ _ h), fun hok name => ?_⟩
        rw [hkeys hok name, GoMap.contains_set]
        simp only [GoMap.keys, List.map_cons, List.mem_cons]
        tauto
    · simp [initRobotUsersLoop, hvalid]

/-- The loop of `initHumanUsers` keeps the keys of the role map distinct. -/
theorem initHumanUsersLoop_nodup (members : List String) :
    ∀ c : Cluster, (GoMap.keys c.pgUsers).Nodup →
      (GoMap.keys (initHumanUsersLoop members c).pgUsers).Nodup := by
  induction members with
  | nil => intro c h; exact h
  | cons u rest ih =>
    intro c h
    simp only [initHumanUsersLoop]
    exact ih _ (GoMap.keys_set_nodup _ _ _ h)

/-- The loop of `initHumanUsers` binds the members on top of the names bound before. -/
theorem initHumanUsersLoop_contains (members : List String) (c : Cluster) (name : String) :
    GoMap.contains (initHumanUsersLoop members c).pgUsers name = true ↔
      name ∈ members ∨ GoMap.contains c.pgUsers name = true := by
  unfold GoMap.contains
  rw [initHumanUsersLoop_get?]
  by_cases h : name ∈ members <;> simp [h]

/-- The method `initSystemUsers` keeps the declared spec and the distinctness of the
keys, and binds the two system names on top of the names bound before. -/
theorem initSystemUsers_spec (K : Constants) (ops : Ops) (s : Exec) :
    (initSystemUsers K ops s).c.Spec = s.c.Spec ∧
    ((GoMap.keys s.c.pgUsers).Nodup → (GoMap.keys (initSystemUsers K ops s).c.pgUsers).Nodup) ∧
    ∀ name, GoMap.contains (initSystemUsers K ops s).c.pgUsers name = true ↔
      name = K.SuperuserName ∨ name = K.ReplicationUsername ∨
        GoMap.contains s.c.pgUsers name = true := by
  refine ⟨rfl, fun h => ?_, fun name => ?_⟩
  · exact GoMap.keys_set_nodup _ _ _ (GoMap.keys_set_nodup _ _ _ h)
  · simp only [initSystemUsers, GoMap.contains_set]
    tauto

/-- The role map after the three seeding methods, from an empty role map: its keys
are distinct and are the two system names, the declared names and the members. -/
theorem seeded_roleMap (K : Constants) (ops : Ops) (s s2 : Exec) (teamMembers : List String)
    (hfresh : s.c.pgUsers = [])
    (hframe : ∀ c, (ops.getTeamMembers c).2.pgUsers = c.pgUsers)
    (hrobot : initRobotUsers ops (initSystemUsers K ops s) = (none, s2))
    (hteam : (ops.getTeamMembers s2.c).1 = .ok teamMembers) :
    (initHumanUsers ops s2).1 = none ∧
    (GoMap.keys (initHumanUsers ops s2).2.c.pgUsers).Nodup ∧
    ∀ name, name ∈ GoMap.keys (initHumanUsers ops s2).2.c.pgUsers ↔
      name ∈ [K.SuperuserName, K.ReplicationUsername] ++ GoMap.keys s.c.Spec.Users
        ++ teamMembers := by
  obtain ⟨hsysSpec, hsysNodup, hsysKeys⟩ := initSystemUsers_spec K ops s
  obtain ⟨_, hrobNodup, hrobKeys⟩ :=
    initRobotUsersLoop_spec ops (initSystemUsers K ops s).c.Spec.Users (initSystemUsers K ops s).c
  have hs2 : s2.c = (initRobotUsersLoop ops (initSystemUsers K ops s).c.Spec.Users
      (initSystemUsers K ops s).c).2 := by
    have := congrArg (fun r => r.2.c) hrobot
    simpa [initRobotUsers] using this.symm
  have hok : (initRobotUsersLoop ops (initSystemUsers K ops s).c.Spec.Users
      (initSystemUsers K ops s).c).1 = none := by
    have := congrArg (fun r => r.1) hrobot
    simpa [initRobotUsers] using this
  have hrun : (initHumanUsers ops s2).2.c =
      initHumanUsersLoop teamMembers (ops.getTeamMembers s2.c).2 := by
    unfold initHumanUsers
    have : (s2.callGet .getTeamMembers ops.getTeamMembers).1 = .ok teamMembers := hteam
    simp only [this]
    rfl
  have hnodup0 : (GoMap.keys s.c.pgUsers).Nodup := by rw [hfresh]; exact List.nodup_nil
  have hnone : (initHumanUsers ops s2).1 = none := by
    unfold initHumanUsers
    have : (s2.callGet .getTeamMembers ops.getTeamMembers).1 = .ok teamMembers := hteam
    simp only [this]
  refine ⟨hnone, ?_, fun name => ?_⟩
  · rw [hrun]
    apply initHumanUsersLoop_nodup
    rw [hframe, hs2]
    exact hrobNodup (hsysNodup hnodup0)
  · rw [← GoMap.contains_iff_mem_keys, hrun, initHumanUsersLoop_contains, hframe, hs2,
      hrobKeys hok, hsysKeys, hsysSpec, hfresh]
    simp only [GoMap.contains, GoMap.get?, Option.isSome_none, List.mem_append, List.mem_cons,
      List.mem_singleton, List.not_mem_nil, or_false, Bool.false_eq_true]
    tauto

/-- C7, as stated, fails: with one declared robot user and a team of one member that
bears the same name, the role map after the seeding has three entries, not four. -/
theorem roleMap_four_entries_counterexample :
    (New 0 { Metadata := sampleMeta,
             Spec := { sampleSpec with Users := [("alice", ["LOGIN"])] } }).Spec.Users.length = 1 ∧
    (sampleOps.getTeamMembers (initRobotUsers sampleOps (initSystemUsers sampleConstants sampleOps
      { c := New 0 { Metadata := sampleMeta,
                     Spec := { sampleSpec with Users := [("alice", ["LOGIN"])] } },
        calls := [] })).2.c).1 = .ok ["alice"] ∧
    (initRobotUsers sampleOps (initSystemUsers sampleConstants sampleOps
      { c := New 0 { Metadata := sampleMeta,
                     Spec := { sampleSpec with Users := [("alice", ["LOGIN"])] } },
        calls := [] })).1 = none ∧
    (initHumanUsers sampleOps (initRobotUsers sampleOps (initSystemUsers sampleConstants sampleOps
      { c := New 0 { Metadata := sampleMeta,
                     Spec := { sampleSpec with Users := [("alice", ["LOGIN"])] } },
        calls := [] })).2).1 = none ∧
    GoMap.len (initHumanUsers sampleOps (initRobotUsers sampleOps
      (initSystemUsers sampleConstants sampleOps
        { c := New 0 { Metadata := sampleMeta,
                       Spec := { sampleSpec with Users := [("alice", ["LOGIN"])] } },
          calls := [] })).2).2.c.pgUsers = 3 := by
  refine ⟨rfl, rfl, ?_, ?_, ?_⟩ <;> decide

/-- C7, amended: on a freshly constructed cluster, once `initSystemUsers`,
`initRobotUsers` and `initHumanUsers` have succeeded (the team lookup leaving the role
map alone), the names bound in the role map are the superuser and replication names,
the declared robot names and the resolved team members, and nothing else; the number
of entries is the number of distinct names among these, which is four for one
declared robot user and one team member when the four names are pairwise distinct. -/
theorem roleMap_after_seeding (K : Constants) (ops : Ops) (cfg : World) (pgSpec : Postgresql)
    (s2 : Exec) (teamMembers : List String)
    (hframe : ∀ c, (ops.getTeamMembers c).2.pgUsers = c.pgUsers)
    (hrobot : initRobotUsers ops (initSystemUsers K ops { c := New cfg pgSpec, calls := [] })
      = (none, s2))
    (hteam : (ops.getTeamMembers s2.c).1 = .ok teamMembers) :
    (initHumanUsers ops s2).1 = none ∧
    (∀ name, GoMap.contains (initHumanUsers ops s2).2.c.pgUsers name = true ↔
      name = K.SuperuserName ∨ name = K.ReplicationUsername ∨
        name ∈ GoMap.keys pgSpec.Spec.Users ∨ name ∈ teamMembers) ∧
    GoMap.len (initHumanUsers ops s2).2.c.pgUsers =
      ([K.SuperuserName, K.ReplicationUsername] ++ GoMap.keys pgSpec.Spec.Users
        ++ teamMembers).dedup.length ∧
    (∀ robot flags human, pgSpec.Spec.Users = [(robot, flags)] → teamMembers = [human] →
      [K.SuperuserName, K.ReplicationUsername, robot, human].Nodup →
      GoMap.len (initHumanUsers ops s2).2.c.pgUsers = 4) := by
  obtain ⟨hok, hnodup, hkeys⟩ := seeded_roleMap K ops { c := New cfg pgSpec, calls := [] } s2
    teamMembers rfl hframe hrobot hteam
  have hspec : (New cfg pgSpec).Spec = pgSpec.Spec := rfl
  simp only [hspec] at hkeys
  have hlen : GoMap.len (initHumanUsers ops s2).2.c.pgUsers =
      ([K.SuperuserName, K.ReplicationUsername] ++ GoMap.keys pgSpec.Spec.Users
        ++ teamMembers).dedup.length := by
    have hperm : List.Perm (GoMap.keys (initHumanUsers ops s2).2.c.pgUsers)
        ([K.SuperuserName, K.ReplicationUsername] ++ GoMap.keys pgSpec.Spec.Users
          ++ teamMembers).dedup :=
      (List.perm_ext_iff_of_nodup hnodup (List.nodup_dedup _)).mpr
        (fun name => by rw [hkeys name, List.mem_dedup])
    have := hperm.length_eq
    simpa [GoMap.len, GoMap.keys] using this
  refine ⟨hok, fun name => ?_, hlen, ?_⟩
  · rw [GoMap.contains_iff_mem_keys, hkeys]
    simp only [List.mem_append, List.mem_cons, List.mem_singleton, List.not_mem_nil, or_false]
    tauto
  · intro robot flags human husers hmembers hdistinct
    rw [hlen, husers, hmembers]
    have : [K.SuperuserName, K.ReplicationUsername] ++ GoMap.keys [(robot, flags)] ++ [human]
        = [K.SuperuserName, K.ReplicationUsername, robot, human] := rfl
    rw [this, hdistinct.dedup]
    rfl

/-- Witness of amended C7: the sample cluster declares the robot user "robot" and its
team has the one member "alice"; the role map has four entries. -/
theorem roleMap_after_seeding_witness :
    GoMap.len (initHumanUsers sampleOps (initRobotUsers sampleOps
      (initSystemUsers sampleConstants sampleOps sampleFreshExec)).2).2.c.pgUsers = 4 :=
  (roleMap_after_seeding sampleConstants sampleOps 0 samplePostgresql
    (initRobotUsers sampleOps (initSystemUsers sampleConstants sampleOps sampleFreshExec)).2
    ["alice"] (fun _ => rfl) (by decide) rfl).2.2.2 "robot" ["LOGIN"] "alice" rfl rfl (by decide)

/-! ## Properties of the role flags -/

/-- C9: when the five flag names are pairwise distinct, decoding the list that
`makeUserFlags` builds from five booleans gives the five booleans back, for each of
the 32 combinations; hence `makeUserFlags` is injective. -/
theorem makeUserFlags_roundtrip (K : Constants)
    (hdistinct : [K.RoleFlagSuperuser, K.RoleFlagInherit, K.RoleFlagCreateRole,
      K.RoleFlagCreateDB, K.RoleFlagLogin].Nodup)
    (rolsuper rolinherit rolcreaterole rolcreatedb rolcanlogin : Bool) :
    decodeUserFlags K
        (makeUserFlags K rolsuper rolinherit rolcreaterole rolcreatedb rolcanlogin)
      = (rolsuper, rolinherit, rolcreaterole, rolcreatedb, rolcanlogin) ∧
    ∀ a b c d e : Bool,
      makeUserFlags K a b c d e
          = makeUserFlags K rolsuper rolinherit rolcreaterole rolcreatedb rolcanlogin →
        (a, b, c, d, e) = (rolsuper, rolinherit, rolcreaterole, rolcreatedb, rolcanlogin) := by
  have hdecode : ∀ a b c d e : Bool,
      decodeUserFlags K (makeUserFlags K a b c d e) = (a, b, c, d, e) := by
    simp only [List.nodup_cons, List.mem_cons, List.mem_singleton, List.not_mem_nil,
      not_or, or_false, List.nodup_nil, and_true, not_false_eq_true] at hdistinct
    obtain ⟨⟨h12, h13, h14, h15⟩, ⟨h23, h24, h25⟩, ⟨h34, h35⟩, h45⟩ := hdistinct
    intro a b c d e
    cases a <;> cases b <;> cases c <;> cases d <;> cases e <;>
      simp [makeUserFlags, decodeUserFlags, h12, h13, h14, h15, h23, h24, h25, h34, h35, h45,
        Ne.symm h12, Ne.symm h13, Ne.symm h14, Ne.symm h15, Ne.symm h23, Ne.symm h24,
        Ne.symm h25, Ne.symm h34, Ne.symm h35, Ne.symm h45]
  refine ⟨hdecode _ _ _ _ _, fun a b c d e h => ?_⟩
  rw [← hdecode a b c d e, h, hdecode]

/-- Witness of C9: the five sample flag names are pairwise distinct; the flags of a
role that may inherit and log in decode to these two booleans. -/
theorem makeUserFlags_roundtrip_witness :
    decodeUserFlags sampleConstants (makeUserFlags sampleConstants false true false false true)
      = (false, true, false, false, true) :=
  (makeUserFlags_roundtrip sampleConstants (by decide) false true false false true).1

/-! ## Properties of the name pattern -/

/-- The class `[a-zA-Z]` holds the ASCII letters. -/
theorem inClass_letters (c : Char) :
    inClass [('a', 'z'), ('A', 'Z')] c = c.isAlpha := by
  simp only [inClass, List.any_cons, List.any_nil, Bool.or_false, Char.isAlpha, Char.isUpper,
    Char.isLower]
  rw [Bool.or_comm]
  rfl

/-- The class `[a-zA-Z0-9]` holds the ASCII letters and digits. -/
theorem inClass_alphanumerics (c : Char) :
    inClass [('a', 'z'), ('A', 'Z'), ('0', '9')] c = (c.isAlpha || c.isDigit) := by
  simp only [inClass, List.any_cons, List.any_nil, Bool.or_false, Char.isAlpha, Char.isUpper,
    Char.isLower, Char.isDigit]
  rw [← Bool.or_assoc, Bool.or_comm (decide _ && decide _)]
  rfl

/-- Nothing followed by anything matches no text. -/
theorem Regex.fullMatch_nothing_seq (r : Regex) :
    ∀ cs : List Char, (Regex.seq .nothing r).fullMatch cs = false := by
  intro cs
  induction cs with
  | nil => simp [Regex.fullMatch, Regex.nullable]
  | cons c cs ih => simpa [Regex.fullMatch, Regex.deriv, Regex.nullable] using ih

/-- An alternative matches the texts that one of its sides matches. -/
theorem Regex.fullMatch_alt :
    ∀ (cs : List Char) (r1 r2 : Regex),
      (Regex.alt r1 r2).fullMatch cs = (r1.fullMatch cs || r2.fullMatch cs) := by
  intro cs
  induction cs with
  | nil => intro r1 r2; simp [Regex.fullMatch, Regex.nullable]
  | cons c cs ih => intro r1 r2; simp only [Regex.fullMatch, Regex.deriv]; exact ih _ _

/-- A starred class matches the texts made of characters of the class. -/
theorem Regex.fullMatch_star_cls (ranges : List (Char × Char)) :
    ∀ cs : List Char,
      (Regex.seq .eps (.star (.cls ranges))).fullMatch cs = cs.all (inClass ranges) := by
  intro cs
  induction cs with
  | nil => simp [Regex.fullMatch, Regex.nullable]
  | cons c cs ih =>
    simp only [Regex.fullMatch, Regex.deriv, Regex.nullable, if_true, Regex.fullMatch_alt,
      Regex.fullMatch_nothing_seq, Bool.false_or, List.all_cons]
    by_cases hc : inClass ranges c = true
    · simp [hc, ih]
    · simp [hc, Regex.fullMatch_nothing_seq]

/-- The body of the name pattern matches a text exactly when the text starts with a
character of the first class and goes on with characters of the second. -/
theorem fullMatch_cls_star_cls (first later : List (Char × Char)) (cs : List Char) :
    (Regex.seq (.cls first) (.star (.cls later))).fullMatch cs =
      match cs with
      | [] => false
      | c :: rest => inClass first c && rest.all (inClass later) := by
  cases cs with
  | nil => simp [Regex.fullMatch, Regex.nullable]
  | cons c rest =>
    simp only [Regex.fullMatch, Regex.deriv, Regex.nullable, Bool.false_eq_true, if_false]
    by_cases hc : inClass first c = true
    · simp [hc, Regex.fullMatch_star_cls]
    · simp [hc, Regex.fullMatch_nothing_seq]

/-- The name pattern accepts a text exactly when the text starts with an ASCII letter
and goes on with ASCII letters and digits. -/
theorem alphaNumericRegexp_eq (s : String) :
    alphaNumericRegexp.MatchString s =
      match s.toList with
      | [] => false
      | c :: rest => c.isAlpha && rest.all (fun d => d.isAlpha || d.isDigit) := by
  simp only [Regexp.MatchString, alphaNumericRegexp, if_true, List.any_cons, List.any_nil,
    Bool.or_false, fullMatch_cls_star_cls]
  cases s.toList with
  | nil => rfl
  | cons c rest =>
    simp only [inClass_letters]
    congr 1
    exact congrArg (fun p => rest.all p) (funext inClass_alphanumerics)

/-- C10: the name pattern accepts a string exactly when the string is not empty, its
first character is an ASCII letter and every later character is an ASCII letter or
digit; so it rejects the empty string, every string that starts with a digit and
every string that holds a hyphen, an underscore or a space. -/
theorem alphaNumericRegexp_accepts_iff (s : String) :
    (alphaNumericRegexp.MatchString s = true ↔
      ∃ c rest, s.toList = c :: rest ∧ c.isAlpha = true ∧
        ∀ d ∈ rest, d.isAlpha = true ∨ d.isDigit = true) ∧
    alphaNumericRegexp.MatchString "" = false ∧
    (∀ c rest, s.toList = c :: rest → c.isDigit = true →
      alphaNumericRegexp.MatchString s = false) ∧
    (('-' ∈ s.toList ∨ '_' ∈ s.toList ∨ ' ' ∈ s.toList) →
      alphaNumericRegexp.MatchString s = false) := by
  have hiff : alphaNumericRegexp.MatchString s = true ↔
      ∃ c rest, s.toList = c :: rest ∧ c.isAlpha = true ∧
        ∀ d ∈ rest, d.isAlpha = true ∨ d.isDigit = true := by
    rw [alphaNumericRegexp_eq]
    cases s.toList with
    | nil => simp
    | cons c rest =>
      simp only [Bool.and_eq_true, List.all_eq_true, Bool.or_eq_true]
      constructor
      · rintro ⟨hc, hrest⟩
        exact ⟨c, rest, rfl, hc, hrest⟩
      · rintro ⟨c', rest', heq, hc, hrest⟩
        cases heq
        exact ⟨hc, hrest⟩
  have hdigit : ∀ c : Char, c.isDigit = true → c.isAlpha = false := by
    intro c hc
    simp only [Char.isDigit, Char.isAlpha, Char.isUpper, Char.isLower, ge_iff_le,
      Bool.and_eq_true, decide_eq_true_eq, Bool.or_eq_false_iff, Bool.and_eq_false_imp,
      decide_eq_false_iff_not] at hc ⊢
    obtain ⟨h1, h2⟩ := hc
    have h2n : c.val.toNat ≤ 57 := h2
    constructor
    · intro h
      have hn : 65 ≤ c.val.toNat := h
      omega
    · intro h
      have hn : 97 ≤ c.val.toNat := h
      omega
  refine ⟨hiff, by decide, ?_, ?_⟩
  · intro c rest hs hc
    rw [alphaNumericRegexp_eq, hs]
    simp [hdigit c hc]
  · intro hmem
    by_contra hne
    have hacc : alphaNumericRegexp.MatchString s = true := by simpa using hne
    obtain ⟨c, rest, hs, hc, hrest⟩ := hiff.mp hacc
    have hall : ∀ d ∈ s.toList, d.isAlpha = true ∨ d.isDigit = true := by
      intro d hd
      rw [hs] at hd
      rcases List.mem_cons.mp hd with h | h
      · exact Or.inl (h ▸ hc)
      · exact hrest d h
    rcases hmem with h | h | h
    · have := hall _ h
      revert this
      decide
    · have := hall _ h
      revert this
      decide
    · have := hall _ h
      revert this
      decide

/-- Witness of C10: a name of letters and digits is accepted; the empty string, a
string that starts with a digit and strings that hold a hyphen, an underscore or a
space are rejected. -/
theorem alphaNumericRegexp_accepts_iff_witness :
    alphaNumericRegexp.MatchString "owner1" = true ∧
    alphaNumericRegexp.MatchString "" = false ∧
    alphaNumericRegexp.MatchString "1abc" = false ∧
    alphaNumericRegexp.MatchString "bad-name" = false ∧
    alphaNumericRegexp.MatchString "bad_name" = false ∧
    alphaNumericRegexp.MatchString "bad name" = false :=
  ⟨(alphaNumericRegexp_accepts_iff "owner1").1.mpr
      ⟨'o', ['w', 'n', 'e', 'r', '1'], rfl, by decide, by decide⟩,
   (alphaNumericRegexp_accepts_iff "").2.1,
   (alphaNumericRegexp_accepts_iff "1abc").2.2.1 '1' ['a', 'b', 'c'] rfl (by decide),
   (alphaNumericRegexp_accepts_iff "bad-name").2.2.2 (Or.inl (by decide)),
   (alphaNumericRegexp_accepts_iff "bad_name").2.2.2 (Or.inr (Or.inl (by decide))),
   (alphaNumericRegexp_accepts_iff "bad name").2.2.2 (Or.inr (Or.inr (by decide)))⟩

/-! ## Properties of the database connection -/

/-- C13: in every state `closeDbConn` returns no error, also when the close of the
handle fails, and leaves no handle cached; on a state without a handle it changes
nothing, and a second call leaves the state of the first. -/
theorem closeDbConn_idempotent (ops : Ops) (s : Exec) :
    (closeDbConn ops s).1 = none ∧
    (closeDbConn ops s).2.c.pgDb = none ∧
    (s.c.pgDb = none → closeDbConn ops s = (none, s)) ∧
    closeDbConn ops (closeDbConn ops s).2 = (none, (closeDbConn ops s).2) := by
  have hnil : ∀ t : Exec, t.c.pgDb = none → closeDbConn ops t = (none, t) := by
    intro t ht
    simp [closeDbConn, ht]
  have hdrop : (closeDbConn ops s).2.c.pgDb = none := by
    unfold closeDbConn
    cases h : s.c.pgDb <;> simp [h]
  refine ⟨?_, hdrop, hnil s, hnil _ hdrop⟩
  unfold closeDbConn
  cases h : s.c.pgDb <;> simp

/-- Witness of C13: with a cached handle whose close fails, `closeDbConn` records the
failed close, returns no error and drops the handle; a second call does nothing. -/
theorem closeDbConn_idempotent_witness :
    closeDbConn { sampleOps with dbClose := fun _ w => (some "broken pipe", w) }
        { sampleExec with c := { sampleExec.c with pgDb := some 7 } }
      = (none, { sampleExec with calls := [{ call := .dbClose 7, err := some "broken pipe" }] }) ∧
    closeDbConn { sampleOps with dbClose := fun _ w => (some "broken pipe", w) }
        (closeDbConn { sampleOps with dbClose := fun _ w => (some "broken pipe", w) }
          { sampleExec with c := { sampleExec.c with pgDb := some 7 } }).2
      = (none, { sampleExec with calls := [{ call := .dbClose 7, err := some "broken pipe" }] }) := by
  have h := closeDbConn_idempotent { sampleOps with dbClose := fun _ w => (some "broken pipe", w) }
    { sampleExec with c := { sampleExec.c with pgDb := some 7 } }
  refine ⟨by decide, ?_⟩
  rw [h.2.2.2]
  decide

/-- C14: with a cached handle `initDbConn` makes no call, returns no error and leaves
the state as it is; without one it opens a connection and probes it: a failed open
returns its error, a failed probe returns its error after closing the connection just
opened, both leaving no handle cached, and only a successful probe caches the new
connection. -/
theorem initDbConn_discipline (ops : Ops) (s : Exec) :
    (∀ conn, s.c.pgDb = some conn → initDbConn ops s = (none, s)) ∧
    (s.c.pgDb = none → ∀ e, (ops.sqlOpen s.c).1 = .error e →
      (initDbConn ops s).1 = some e ∧ (initDbConn ops s).2.c.pgDb = none ∧
      (initDbConn ops s).2.calls = s.calls ++ [{ call := .sqlOpen, err := some e }]) ∧
    (s.c.pgDb = none → ∀ conn, (ops.sqlOpen s.c).1 = .ok conn →
      ∀ e, (ops.dbPing conn (ops.sqlOpen s.c).2).1 = some e →
      (initDbConn ops s).1 = some e ∧ (initDbConn ops s).2.c.pgDb = none ∧
      (initDbConn ops s).2.calls = s.calls ++
        [{ call := .sqlOpen, err := none }, { call := .dbPing conn, err := some e },
         { call := .dbClose conn,
           err := (ops.dbClose conn (ops.dbPing conn (ops.sqlOpen s.c).2).2).1 }]) ∧
    (s.c.pgDb = none → ∀ conn, (ops.sqlOpen s.c).1 = .ok conn →
      (ops.dbPing conn (ops.sqlOpen s.c).2).1 = none →
      (initDbConn ops s).1 = none ∧ (initDbConn ops s).2.c.pgDb = some conn ∧
      (initDbConn ops s).2.calls = s.calls ++
        [{ call := .sqlOpen, err := none }, { call := .dbPing conn, err := none }]) := by
  refine ⟨?_, ?_, ?_, ?_⟩
  · intro conn h
    simp [initDbConn, h]
  · intro h e hopen
    simp [initDbConn, h, Exec.callGet, hopen, errOf]
  · intro h conn hopen e hping
    simp [initDbConn, h, Exec.callGet, Exec.callWorld, hopen, hping, errOf]
  · intro h conn hopen hping
    simp [initDbConn, h, Exec.callGet, Exec.callWorld, hopen, hping, errOf]

/-- Witness of C14: on the sample state, which caches no handle, a probe that fails
makes `initDbConn` return the probe's error, close the connection and cache nothing;
on a state that caches a handle nothing is called. -/
theorem initDbConn_discipline_witness :
    initDbConn { sampleOps with dbPing := fun _ w => (some "no route", w) } sampleExec
      = (some "no route",
         { sampleExec with calls :=
            [{ call := .sqlOpen, err := none }, { call := .dbPing 1, err := some "no route" },
             { call := .dbClose 1, err := none }] }) ∧
    initDbConn sampleOps { sampleExec with c := { sampleExec.c with pgDb := some 7 } }
      = (none, { sampleExec with c := { sampleExec.c with pgDb := some 7 } }) :=
  ⟨by decide,
   (initDbConn_discipline sampleOps
      { sampleExec with c := { sampleExec.c with pgDb := some 7 } }).1 7 rfl⟩

/-! ## Properties of the catalog readers -/

/-- C15 at its failing input. A row of the role query fails to scan, so the loop of
`readPgUsersFromDatabase` returns the row error, and the close of the cursor, which is
still open, fails too: the caller receives the close error, and the row error is
masked. On the same input `getDatabases` returns the row error. -/
theorem cursor_close_error_at_failing_inputs :
    readPgUsersFromDatabaseLoop sampleConstants [.error "bad row"] []
      = (none, some "error when processing user rows: bad row") ∧
    (readPgUsersFromDatabase sampleConstants scanAndCloseFailOps ["postgres"]
        { sampleExec with c := { sampleExec.c with pgDb := some 7 } }).1
      = .returned none (some "error when closing query cursor: cursor gone") ∧
    (getDatabases scanAndCloseFailOps sampleExec).1
      = .returned none (some "error when processing row: bad row") := by
  refine ⟨?_, ?_, ?_⟩ <;> decide

/-- In `getDatabases` the outcome of closing the cursor never reaches the caller: once
the query has returned rows, the results are those of the row loop alone. -/
theorem getDatabases_result_ignores_close (ops : Ops) (s : Exec) (conn : DbConn)
    (rows : Rows (String × String))
    (hinit : (initDbConn ops s).1 = none)
    (hconn : (initDbConn ops s).2.c.pgDb = some conn)
    (hquery : (ops.dbQueryDatabases conn (initDbConn ops s).2.c.world).1 = .ok rows) :
    (getDatabases ops s).1 =
      .returned (getDatabasesLoop rows.scans []).1 (getDatabasesLoop rows.scans []).2 := by
  have hq : ((initDbConn ops s).2.callWorldGet (.dbQuery conn getDatabasesSQL)
      (ops.dbQueryDatabases conn)).1 = .ok rows := hquery
  unfold getDatabases
  simp only [hinit, hconn, hq]

/-- In `readPgUsersFromDatabase` a failed close of the cursor after a failed scan
replaces the row error in the results. -/
theorem readPgUsersFromDatabase_close_error_replaces (K : Constants) (ops : Ops)
    (userNames : List String) (s : Exec) (conn : DbConn) (rows : Rows PgUserRow)
    (rowErr err2 : String)
    (hconn : s.c.pgDb = some conn)
    (hquery : (ops.dbQueryUsers conn userNames s.c.world).1 = .ok rows)
    (hrow : (readPgUsersFromDatabaseLoop K rows.scans []).2 = some rowErr)
    (hclose : rows.closeErr = some err2) :
    (readPgUsersFromDatabase K ops userNames s).1 =
      .returned (readPgUsersFromDatabaseLoop K rows.scans []).1
        (some ("error when closing query cursor: " ++ err2)) := by
  have hq : (s.callWorldGet (.dbQuery conn getUserSQL) (ops.dbQueryUsers conn userNames)).1
      = .ok rows := hquery
  unfold readPgUsersFromDatabase
  simp only [hconn, hq, hrow, Rows.deferredClose, Option.isNone_some, Bool.false_eq_true,
    if_false, hclose]

/-! ## Properties of the database creation -/

/-- The queries of two runs of calls, one after the other. -/
theorem queriesOf_append (xs ys : List CallRecord) :
    queriesOf (xs ++ ys) = queriesOf xs ++ queriesOf ys := by
  induction xs with
  | nil => rfl
  | cons x rest ih =>
    obtain ⟨call, err⟩ := x
    cases call <;> simp [queriesOf, ih]

/-- Doing nothing is a database step without queries. -/
theorem Exec.dbStep_refl (s : Exec) : Exec.dbStep s s [] :=
  ⟨rfl, [], by simp, rfl⟩

/-- Database steps compose, and so do their queries. -/
theorem Exec.dbStep_trans {s s' s'' : Exec} {q q' : List String}
    (h : Exec.dbStep s s' q) (h' : Exec.dbStep s' s'' q') : Exec.dbStep s s'' (q ++ q') := by
  obtain ⟨hc, made, hcalls, hq⟩ := h
  obtain ⟨hc', made', hcalls', hq'⟩ := h'
  refine ⟨?_, made ++ made', ?_, ?_⟩
  · rw [hc', hc]
  · rw [hcalls', hcalls, List.append_assoc]
  · rw [queriesOf_append, hq, hq']

/-- An operation on the world that is no query is a database step without queries. -/
theorem Exec.dbStep_callWorld (s : Exec) (k : Call) (f : World → Option String × World)
    (hk : ∀ conn sql, k ≠ Call.dbQuery conn sql) : Exec.dbStep s (s.callWorld k f).2 [] := by
  refine ⟨rfl, [{ call := k, err := (f s.c.world).1 }], rfl, ?_⟩
  cases k <;> first | rfl | exact absurd rfl (hk _ _)

/-- A query is a database step with that one query. -/
theorem Exec.dbStep_query (s : Exec) (conn : DbConn) (sql : String)
    (f : World → Option String × World) :
    Exec.dbStep s (s.callWorld (.dbQuery conn sql) f).2 [sql] :=
  ⟨rfl, [{ call := .dbQuery conn sql, err := (f s.c.world).1 }], rfl, rfl⟩

/-- A query that returns rows is a database step with that one query. -/
theorem Exec.dbStep_queryGet {α : Type} (s : Exec) (conn : DbConn) (sql : String)
    (f : World → Except String α × World) :
    Exec.dbStep s (s.callWorldGet (.dbQuery conn sql) f).2 [sql] :=
  ⟨rfl, [{ call := .dbQuery conn sql, err := errOf (f s.c.world).1 }], rfl, rfl⟩

/-- Closing a cursor is a database step without queries. -/
theorem Exec.dbStep_closeRows {α : Type} (s : Exec) (rows : Rows α) (completed : Bool) :
    Exec.dbStep s (s.closeRows rows completed) [] :=
  ⟨rfl, [{ call := .rowsClose, err := rows.deferredClose completed }], rfl, rfl⟩

/-- The method `closeDbConn` is a database step without queries. -/
theorem closeDbConn_dbStep (ops : Ops) (s : Exec) : Exec.dbStep s (closeDbConn ops s).2 [] := by
  unfold closeDbConn
  cases h : s.c.pgDb with
  | none => exact Exec.dbStep_refl s
  | some conn =>
    refine ⟨?_, [{ call := .dbClose conn, err := (ops.dbClose conn s.c.world).1 }], rfl, rfl⟩
    simp [Exec.callWorld]

/-- The method `initDbConn` is a database step without queries. -/
theorem initDbConn_dbStep (ops : Ops) (s : Exec) : Exec.dbStep s (initDbConn ops s).2 [] := by
  unfold initDbConn
  cases h : s.c.pgDb with
  | some conn => exact Exec.dbStep_refl s
  | none =>
    simp only
    cases hopen : (ops.sqlOpen s.c).1 with
    | error e =>
      simp only [Exec.callGet, hopen]
      exact ⟨by simp, [{ call := .sqlOpen, err := errOf (Except.error e) }], rfl, rfl⟩
    | ok conn =>
      simp only [Exec.callGet, hopen]
      cases hping : (ops.dbPing conn (ops.sqlOpen s.c).2).1 with
      | some e =>
        simp only [Exec.callWorld, hping]
        exact ⟨by simp, [{ call := .sqlOpen, err := errOf (Except.ok conn) },
          { call := .dbPing conn, err := some e },
          { call := .dbClose conn,
            err := (ops.dbClose conn (ops.dbPing conn (ops.sqlOpen s.c).2).2).1 }],
          by simp, rfl⟩
      | none =>
        simp only [Exec.callWorld, hping]
        exact ⟨by simp, [{ call := .sqlOpen, err := errOf (Except.ok conn) },
          { call := .dbPing conn, err := none }], by simp, rfl⟩

/-- A database step keeps the declared spec and the role map. -/
theorem Exec.dbStep_frame {s s' : Exec} {q : List String} (h : Exec.dbStep s s' q) :
    s'.c.Spec = s.c.Spec ∧ s'.c.pgUsers = s.c.pgUsers := by
  obtain ⟨hc, _⟩ := h
  constructor
  · rw [hc]
  · rw [hc]

/-- The method `getDatabases` is a database step. -/
theorem getDatabases_dbStep (ops : Ops) (s : Exec) :
    ∃ q, Exec.dbStep s (getDatabases ops s).2 q := by
  have h0 := initDbConn_dbStep ops s
  unfold getDatabases
  cases hr : (initDbConn ops s).1 with
  | some e => exact ⟨[], by simpa [hr] using h0⟩
  | none =>
    simp only [hr]
    cases hdb : (initDbConn ops s).2.c.pgDb with
    | none => exact ⟨[], by simpa [hdb] using h0⟩
    | some conn =>
      simp only [hdb]
      have h1 := Exec.dbStep_queryGet (initDbConn ops s).2 conn getDatabasesSQL
        (ops.dbQueryDatabases conn)
      cases hq : ((initDbConn ops s).2.callWorldGet (.dbQuery conn getDatabasesSQL)
          (ops.dbQueryDatabases conn)).1 with
      | error e =>
        simp only [hq]
        exact ⟨_, Exec.dbStep_trans (Exec.dbStep_trans h0 h1) (closeDbConn_dbStep ops _)⟩
      | ok rows =>
        simp only [hq]
        exact ⟨_, Exec.dbStep_trans (Exec.dbStep_trans (Exec.dbStep_trans h0 h1)
          (Exec.dbStep_closeRows _ rows _)) (closeDbConn_dbStep ops _)⟩

/-- The loop of `createDatabases` is a database step. -/
theorem createDatabasesLoop_dbStep (ops : Ops) (l : List (String × String)) :
    ∀ s : Exec, ∃ q, Exec.dbStep s (createDatabasesLoop ops l s).2 q := by
  induction l with
  | nil => intro s; exact ⟨[], Exec.dbStep_refl s⟩
  | cons e rest ih =>
    intro s
    obtain ⟨datname, owner⟩ := e
    simp only [createDatabasesLoop]
    split
    · exact ih s
    · split
      · exact ih s
      · split
        · exact ⟨[], Exec.dbStep_refl s⟩
        · rename_i conn hconn
          have h1 := Exec.dbStep_query s conn (createDatabaseSQL datname owner)
            (ops.dbQueryStatement conn (createDatabaseSQL datname owner))
          split
          · exact ⟨_, h1⟩
          · obtain ⟨q, hq⟩ := ih (s.callWorld (.dbQuery conn (createDatabaseSQL datname owner))
              (ops.dbQueryStatement conn (createDatabaseSQL datname owner))).2
            exact ⟨_, Exec.dbStep_trans h1 hq⟩

/-- Deleting a list of keys keeps the entries whose key is not in the list. -/
theorem deleteKeys_eq_filter {V : Type} (ks : List String) :
    ∀ m : GoMap V, deleteKeys m ks = m.filter (fun e => decide (e.1 ∉ ks)) := by
  induction ks with
  | nil => intro m; simp [deleteKeys]
  | cons k rest ih =>
    intro m
    simp only [deleteKeys, ih, GoMap.delete, List.filter_filter]
    apply List.filter_congr
    intro e _
    by_cases h1 : e.1 = k <;> by_cases h2 : e.1 ∈ rest <;> simp [h1, h2]

/-- Looking up a key after keeping the entries whose key passes a test. -/
theorem GoMap.get?_filter_key {V : Type} (m : GoMap V) (p : String → Bool) (k : String) :
    GoMap.get? (m.filter (fun e => p e.1)) k = if p k = true then GoMap.get? m k else none := by
  induction m with
  | nil => simp [GoMap.get?]
  | cons e rest ih =>
    obtain ⟨k', v'⟩ := e
    by_cases hp : p k' = true
    · rw [List.filter_cons_of_pos (by simpa using hp)]
      by_cases hk : k' = k
      · subst hk
        simp [GoMap.get?, hp]
      · simp only [GoMap.get?, hk, if_false]
        exact ih
    · rw [List.filter_cons_of_neg (by simpa using hp)]
      by_cases hk : k' = k
      · subst hk
        rw [ih]
        simp [hp]
      · simp only [GoMap.get?, hk, if_false]
        exact ih

/-- The declared databases after `createDatabases`, when reading the catalog
succeeded: the declared databases before, without those of the catalog. -/
theorem createDatabases_databases (ops : Ops) (s : Exec) (curDbs : GoMap String)
    (hget : (getDatabases ops s).1 = .returned (some curDbs) none) :
    (createDatabases ops s).2.c.Spec.Databases =
      s.c.Spec.Databases.filter (fun e => decide (e.1 ∉ GoMap.keys curDbs)) := by
  obtain ⟨q, hg⟩ := getDatabases_dbStep ops s
  have hspec := (Exec.dbStep_frame hg).1
  unfold createDatabases
  simp only [hget, Option.getD_some, deleteKeys_eq_filter, hspec]
  split
  · rfl
  · rename_i hlen
    have h1 := initDbConn_dbStep ops
      { (getDatabases ops s).2 with
        c := { (getDatabases ops s).2.c with
          Spec := { s.c.Spec with
            Databases := s.c.Spec.Databases.filter
              (fun e => decide (e.1 ∉ GoMap.keys curDbs)) } } }
    split
    · rw [(Exec.dbStep_frame h1).1]
    · obtain ⟨q2, h2⟩ := createDatabasesLoop_dbStep ops
        (initDbConn ops { (getDatabases ops s).2 with
          c := { (getDatabases ops s).2.c with
            Spec := { s.c.Spec with
              Databases := s.c.Spec.Databases.filter
                (fun e => decide (e.1 ∉ GoMap.keys curDbs)) } } }).2.c.Spec.Databases
        (initDbConn ops { (getDatabases ops s).2 with
          c := { (getDatabases ops s).2.c with
            Spec := { s.c.Spec with
              Databases := s.c.Spec.Databases.filter
                (fun e => decide (e.1 ∉ GoMap.keys curDbs)) } } }).2
      have h3 := closeDbConn_dbStep ops (createDatabasesLoop ops
        (initDbConn ops { (getDatabases ops s).2 with
          c := { (getDatabases ops s).2.c with
            Spec := { s.c.Spec with
              Databases := s.c.Spec.Databases.filter
                (fun e => decide (e.1 ∉ GoMap.keys curDbs)) } } }).2.c.Spec.Databases
        (initDbConn ops { (getDatabases ops s).2 with
          c := { (getDatabases ops s).2.c with
            Spec := { s.c.Spec with
              Databases := s.c.Spec.Databases.filter
                (fun e => decide (e.1 ∉ GoMap.keys curDbs)) } } }).2).2
      rw [(Exec.dbStep_frame h3).1, (Exec.dbStep_frame h2).1, (Exec.dbStep_frame h1).1]

/-- C17: `createDatabases` prunes the declared spec of the cluster itself. Whenever
reading the live catalog succeeds, the declared databases of the cluster after
`createDatabases` has returned, with or without an error, are the declared databases
before without those whose name is in the catalog: such a name is no longer bound,
and every other name is bound as before. -/
theorem createDatabases_prunes_declared_spec (ops : Ops) (s : Exec) (curDbs : GoMap String)
    (hget : (getDatabases ops s).1 = .returned (some curDbs) none) :
    (createDatabases ops s).2.c.Spec.Databases =
      s.c.Spec.Databases.filter (fun e => decide (e.1 ∉ GoMap.keys curDbs)) ∧
    (∀ name ∈ GoMap.keys curDbs,
      GoMap.get? (createDatabases ops s).2.c.Spec.Databases name = none) ∧
    (∀ name, name ∉ GoMap.keys curDbs →
      GoMap.get? (createDatabases ops s).2.c.Spec.Databases name
        = GoMap.get? s.c.Spec.Databases name) := by
  have h := createDatabases_databases ops s curDbs hget
  refine ⟨h, fun name hname => ?_, fun name hname => ?_⟩
  · rw [h, GoMap.get?_filter_key s.c.Spec.Databases (fun k => decide (k ∉ GoMap.keys curDbs))]
    simp [hname]
  · rw [h, GoMap.get?_filter_key s.c.Spec.Databases (fun k => decide (k ∉ GoMap.keys curDbs))]
    simp [hname]

/-- Witness of C17: the catalog holds "app"; of the declared databases "app" and "new"
only "new" is left in the declared spec after `createDatabases`. -/
theorem createDatabases_prunes_declared_spec_witness :
    (createDatabases (catalogOps [("app", "owner1")])
        (sampleDbExec [("app", "owner1"), ("new", "owner1")] ["owner1"])).2.c.Spec.Databases
      = [("new", "owner1")] :=
  (createDatabases_prunes_declared_spec (catalogOps [("app", "owner1")])
    (sampleDbExec [("app", "owner1"), ("new", "owner1")] ["owner1"])
    [("app", "owner1")] (by decide)).1

/-- C12 at its failing input. The team lookup returns the member "john.doe", which
`initHumanUsers` stores in the role map as it is; the cluster declares the database
"app" with that owner. `createDatabases` then issues a creation statement that holds
the owner name, although the name does not match the name pattern. -/
theorem createDatabases_owner_unvalidated_at_failing_input :
    alphaNumericRegexp.MatchString "john.doe" = false ∧
    GoMap.contains (initHumanUsers dottedMemberOps
      { c := New 0 { Metadata := sampleMeta,
                     Spec := { sampleSpec with Databases := [("app", "john.doe")] } },
        calls := [] }).2.c.pgUsers "john.doe" = true ∧
    (createDatabases dottedMemberOps (initHumanUsers dottedMemberOps
      { c := New 0 { Metadata := sampleMeta,
                     Spec := { sampleSpec with Databases := [("app", "john.doe")] } },
        calls := [] }).2).1 = .returned none ∧
    queriesOf (createDatabases dottedMemberOps (initHumanUsers dottedMemberOps
      { c := New 0 { Metadata := sampleMeta,
                     Spec := { sampleSpec with Databases := [("app", "john.doe")] } },
        calls := [] }).2).2.calls
      = [getDatabasesSQL, "CREATE DATABASE \"app\" OWNER \"john.doe\";"] := by
  refine ⟨?_, ?_, ?_, ?_⟩ <;> decide

/-! ## Properties of the teardown of a cluster that was never created -/

/-- C18: `Delete` reads the observed endpoint before any teardown step, so on a cluster
whose endpoint is unset, as on every cluster fresh from `New`, which leaves endpoint,
service and workload descriptor unset, it faults without calling any collaborator;
when the three are populated (and the teardown steps leave alone what `Delete` reads
after them) it does not fault. -/
theorem Delete_faults_on_unset_endpoint (ops : Ops) :
    (∀ s : Exec, s.c.Endpoint = none → Delete ops s = (.fault, s)) ∧
    (∀ (cfg : World) (pgSpec : Postgresql) (calls : List CallRecord),
      (New cfg pgSpec).Endpoint = none ∧ (New cfg pgSpec).Service = none ∧
      (New cfg pgSpec).Statefulset = none ∧ (New cfg pgSpec).Secrets = [] ∧
      Delete ops { c := New cfg pgSpec, calls := calls }
        = (.fault, { c := New cfg pgSpec, calls := calls })) ∧
    (∀ (s : Exec) (ep : Endpoints) (svc : Service) (ss : StatefulSet),
      s.c.Endpoint = some ep → s.c.Service = some svc → s.c.Statefulset = some ss →
      ops.teardownFrame → (Delete ops s).1 ≠ .fault) := by
  have hunset : ∀ s : Exec, s.c.Endpoint = none → Delete ops s = (.fault, s) := by
    intro s h
    simp [Delete, h]
  refine ⟨hunset, fun cfg pgSpec calls => ⟨rfl, rfl, rfl, rfl, hunset _ rfl⟩, ?_⟩
  intro s ep svc ss hep hsvc hss hframe
  obtain ⟨hfEp, hfSvc, _, _⟩ := hframe
  have hsvc1 : (ops.deleteEndpoint s.c).2.Service = some svc := by rw [(hfEp s.c).1, hsvc]
  have hss1 : (ops.deleteService (ops.deleteEndpoint s.c).2).2.Statefulset = some ss := by
    rw [(hfSvc _).1, (hfEp s.c).2.1, hss]
  unfold Delete
  simp only [hep, Exec.call_snd_c, hsvc1, hss1]
  split <;> simp

/-- Witness of C18: `Delete` on the sample cluster fresh from `New` faults and calls
nothing; on the populated sample cluster it returns. -/
theorem Delete_faults_on_unset_endpoint_witness :
    Delete sampleOps sampleFreshExec = (.fault, sampleFreshExec) ∧
    (Delete sampleOps sampleFreshExec).2.calls = [] ∧
    (Delete sampleOps sampleExecWithSecrets).1 = .returned none :=
  ⟨((Delete_faults_on_unset_endpoint sampleOps).2.1 0 samplePostgresql []).2.2.2.2,
   by decide, by decide⟩

end PostgresOperator
